import Mathlib

/-!
Shallow embedding of `src/tools/cycling_stats.py` (class `CyclingStats`):
the tolerant element locator, the document loader's section binding and
reference caches, and the four aggregation methods
(`monthly_bike_stats`, `calculate_occupancy_rates`, `guide_performance`,
`path_analytics`), together with theorems settling the frozen claims.

Modelling conventions:
* XML element trees are the inductive type `Xml` (namespace URI, local tag
  name, attribute list, optional text, children).  ElementTree path queries
  used by the source (`name`, `ct:name`, `.//name`, `.//ct:name`, optionally
  with an `[@attr='v']` predicate) are modelled by structured queries
  (namespace, tag, optional attribute predicate) over direct children
  resp. document-order descendants.
* Python `datetime` values are the record `DT` (validated calendar fields)
  with a derived linear timestamp `DT.ts` in seconds (proleptic Gregorian,
  CPython's ordinal algorithm); `datetime.fromisoformat` is modelled by
  `parseDT` on the canonical `YYYY-MM-DD[THH:MM[:SS]]` subset, `none`
  standing for a raised `ValueError`.
* Python `float(...)` and `Decimal(...)` on textual fields are modelled by
  `parseNum : String → Option ℚ` (decimal literals; `none` = raised error).
  Hour quantities and money are both embedded in `ℚ`.
* Python dicts are association lists with insert-or-overwrite `updA`
  (preserving first-insertion position, as Python dicts do); `defaultdict`
  reads are `(lookup _).getD 0`.
* Python truthiness on optional strings (`x or y`, `if not x`) is modelled
  by `truthy : Option String → Option String` which maps `""` to `none`.
* An exception escaping `monthly_bike_stats` (the one aggregation with
  unprotected numeric conversions) is modelled by `Except Unit`.
-/

namespace Cyc

/-- XML element: namespace URI, tag, attributes, text, children. -/
inductive Xml where
  | elem (ns : Option String) (tag : String) (attrs : List (String × String))
      (text : Option String) (children : List Xml)
deriving Repr

def Xml.ns : Xml → Option String
  | .elem n _ _ _ _ => n

def Xml.tag : Xml → String
  | .elem _ t _ _ _ => t

def Xml.attrs : Xml → List (String × String)
  | .elem _ _ a _ _ => a

def Xml.text : Xml → Option String
  | .elem _ _ _ t _ => t

def Xml.children : Xml → List Xml
  | .elem _ _ _ _ c => c

/-- Python `element.get(name)`: attribute lookup. -/
def Xml.get (e : Xml) (name : String) : Option String :=
  e.attrs.lookup name

mutual
/-- All proper descendants of an element, in document (pre)order. -/
def Xml.descendants : Xml → List Xml
  | .elem _ _ _ _ cs => descList cs

def descList : List Xml → List Xml
  | [] => []
  | c :: cs => c :: (Xml.descendants c ++ descList cs)
end

/-- The default namespace URI the engine knows (`self.ns` / prefix `ct`). -/
def ctNs : String := "http://example.com/cycling"

/-- Does element `e` match a query for tag `name` under namespace `ns`
(`none` = no namespace), with an optional `[@a='v']` predicate? -/
def matchQ (ns : Option String) (name : String)
    (pred : Option (String × String)) (e : Xml) : Bool :=
  e.ns == ns && e.tag == name &&
    (match pred with
     | none => true
     | some (a, v) => e.get a == some v)

/-- ElementTree `find` on a direct-children path (`name` / `ct:name`). -/
def findDirect (ns : Option String) (name : String)
    (pred : Option (String × String)) (e : Xml) : Option Xml :=
  (e.children.filter (matchQ ns name pred)).head?

/-- ElementTree `find` on a descendant path (`.//name` / `.//ct:name`). -/
def findDesc (ns : Option String) (name : String)
    (pred : Option (String × String)) (e : Xml) : Option Xml :=
  (e.descendants.filter (matchQ ns name pred)).head?

/-- ElementTree `findall` on a direct-children path. -/
def findallDirect (ns : Option String) (name : String) (e : Xml) : List Xml :=
  e.children.filter (matchQ ns name none)

/-- ElementTree `findall` on a descendant path. -/
def findallDesc (ns : Option String) (name : String) (e : Xml) : List Xml :=
  e.descendants.filter (matchQ ns name none)

/-- ElementTree `findtext`: text of the first match, `""` when the match
has no text, `none` when nothing matches. -/
def findtextDirect (ns : Option String) (name : String) (e : Xml) :
    Option String :=
  (findDirect ns name none e).map (fun r => r.text.getD "")

def findtextDesc (ns : Option String) (name : String) (e : Xml) :
    Option String :=
  (findDesc ns name none e).map (fun r => r.text.getD "")

/-- Python truthiness filter on an optional string: `""` is falsy. -/
def truthy : Option String → Option String
  | some s => if s = "" then none else some s
  | none => none

/-- Source `CyclingStats._find_text`: four strategies, first non-`None`
result wins (namespaced direct, namespaced any-depth, plain direct,
plain any-depth). -/
def findText (element : Option Xml) (path : String) : Option String :=
  match element with
  | none => none
  | some e =>
      ((findtextDirect (some ctNs) path e).orElse fun _ =>
        ((findtextDesc (some ctNs) path e).orElse fun _ =>
          ((findtextDirect none path e).orElse fun _ =>
            findtextDesc none path e)))

/-- Source `CyclingStats._find`: three strategies (namespaced direct,
plain direct, plain any-depth); `pred` is the `[@id='...']` filter the
callers splice into the path string. -/
def findOne (element : Option Xml) (path : String)
    (pred : Option (String × String)) : Option Xml :=
  match element with
  | none => none
  | some e =>
      ((findDirect (some ctNs) path pred e).orElse fun _ =>
        ((findDirect none path pred e).orElse fun _ =>
          findDesc none path pred e))

/-- Source `CyclingStats._findall`: four strategies, first non-empty
list wins. -/
def findAll (element : Option Xml) (path : String) : List Xml :=
  match element with
  | none => []
  | some e =>
      let r := findallDirect (some ctNs) path e
      let r := if r.isEmpty then findallDesc (some ctNs) path e else r
      let r := if r.isEmpty then findallDirect none path e else r
      if r.isEmpty then findallDesc none path e else r

/-- Source `find_section` (local function in `CyclingStats.__init__`):
namespaced direct child, then plain direct child, then plain any-depth. -/
def findSection (root : Xml) (name : String) : Option Xml :=
  ((findDirect (some ctNs) name none root).orElse fun _ =>
    ((findDirect none name none root).orElse fun _ =>
      findDesc none name none root))

/-! ### Calendar arithmetic (CPython `datetime` ordinal algorithm) -/

def isLeap (y : Nat) : Bool :=
  y % 4 == 0 && (y % 100 != 0 || y % 400 == 0)

/-- Days strictly before January 1 of year `y` (year 1 = ordinal day 0). -/
def daysBeforeYear (y : Nat) : Nat :=
  365 * (y - 1) + (y - 1) / 4 - (y - 1) / 100 + (y - 1) / 400

/-- Cumulative day count before month `m` in a non-leap year. -/
def daysBeforeMonthCommon : Nat → Nat
  | 1 => 0 | 2 => 31 | 3 => 59 | 4 => 90 | 5 => 120 | 6 => 151
  | 7 => 181 | 8 => 212 | 9 => 243 | 10 => 273 | 11 => 304 | 12 => 334
  | _ => 0

def daysBeforeMonth (y m : Nat) : Nat :=
  daysBeforeMonthCommon m + (if 2 < m && isLeap y then 1 else 0)

def monthLen (y m : Nat) : Nat :=
  match m with
  | 1 => 31 | 2 => if isLeap y then 29 else 28 | 3 => 31 | 4 => 30
  | 5 => 31 | 6 => 30 | 7 => 31 | 8 => 31 | 9 => 30 | 10 => 31
  | 11 => 30 | 12 => 31 | _ => 0

/-- A Python `datetime` value (validated calendar fields). -/
structure DT where
  year : Nat
  month : Nat
  day : Nat
  hour : Nat
  minute : Nat
  second : Nat
deriving Repr, DecidableEq

/-- Linear timestamp in seconds (proleptic Gregorian); `datetime`
comparison and subtraction are comparison and subtraction of `ts`. -/
def DT.ts (t : DT) : Int :=
  (((daysBeforeYear t.year + daysBeforeMonth t.year t.month + (t.day - 1))
      * 86400 + t.hour * 3600 + t.minute * 60 + t.second : Nat) : Int)

/-- `datetime(year, month, day)` with midnight time, as used for the
month-window bounds. -/
def civil (y m d : Nat) : DT := ⟨y, m, d, 0, 0, 0⟩

/-! ### Text parsers (models of `datetime.fromisoformat`, `float`,
`Decimal`) -/

def digitVal (c : Char) : Nat := c.toNat - 48

def d2 : List Char → Option (Nat × List Char)
  | a :: b :: r =>
      if a.isDigit && b.isDigit then some (digitVal a * 10 + digitVal b, r)
      else none
  | _ => none

def d4 : List Char → Option (Nat × List Char)
  | a :: b :: c :: e :: r =>
      if a.isDigit && b.isDigit && c.isDigit && e.isDigit then
        some (((digitVal a * 10 + digitVal b) * 10 + digitVal c) * 10
          + digitVal e, r)
      else none
  | _ => none

def parseHMS (cs : List Char) : Option (Nat × Nat × Nat) :=
  match d2 cs with
  | none => none
  | some (h, cs1) =>
      match cs1 with
      | ':' :: cs2 =>
          match d2 cs2 with
          | none => none
          | some (mi, cs3) =>
              match cs3 with
              | [] => if h ≤ 23 && mi ≤ 59 then some (h, mi, 0) else none
              | ':' :: cs4 =>
                  match d2 cs4 with
                  | some (s, []) =>
                      if h ≤ 23 && mi ≤ 59 && s ≤ 59 then some (h, mi, s)
                      else none
                  | _ => none
              | _ => none
      | _ => none

/-- Model of `datetime.fromisoformat` on the canonical ISO subset
`YYYY-MM-DD[{T or space}HH:MM[:SS]]`; `none` models a raised
`ValueError`. -/
def parseDT (str : String) : Option DT :=
  match d4 str.toList with
  | none => none
  | some (y, cs) =>
      match cs with
      | '-' :: cs1 =>
          match d2 cs1 with
          | none => none
          | some (mo, cs2) =>
              match cs2 with
              | '-' :: cs3 =>
                  match d2 cs3 with
                  | none => none
                  | some (dd, rest) =>
                      if y < 1 || mo < 1 || 12 < mo || dd < 1 ||
                          monthLen y mo < dd then none
                      else
                        match rest with
                        | [] => some ⟨y, mo, dd, 0, 0, 0⟩
                        | c :: cs4 =>
                            if c = 'T' || c = ' ' then
                              match parseHMS cs4 with
                              | some (h, mi, s) => some ⟨y, mo, dd, h, mi, s⟩
                              | none => none
                            else none
              | _ => none
      | _ => none

def natOfDigits (cs : List Char) : Nat :=
  cs.foldl (fun a c => a * 10 + digitVal c) 0

def parseNumPos (cs : List Char) : Option ℚ :=
  let intPart := cs.takeWhile Char.isDigit
  let rest := cs.dropWhile Char.isDigit
  if intPart.isEmpty then none
  else
    match rest with
    | [] => some (natOfDigits intPart)
    | '.' :: frac =>
        if frac.all Char.isDigit then
          some ((natOfDigits intPart : ℚ)
            + (natOfDigits frac : ℚ) / (10 ^ frac.length))
        else none
    | _ => none

/-- Model of `float(s)` and `Decimal(s)` on decimal literals; `none`
models a raised `ValueError` / `InvalidOperation`. -/
def parseNum (s : String) : Option ℚ :=
  match s.toList with
  | '-' :: t => (parseNumPos t).map Neg.neg
  | t => parseNumPos t

/-! ### Association-list dictionaries -/

/-- Python-dict insert-or-overwrite: update in place if the key exists
(keeping its original position), else append. -/
def updA {β : Type} : List (String × β) → String → β → List (String × β)
  | [], k, v => [(k, v)]
  | (k', v') :: t, k, v =>
      if k' = k then (k, v) :: t else (k', v') :: updA t k v

/-- `defaultdict(float)`-style read. -/
def getQ (l : List (String × ℚ)) (k : String) : ℚ :=
  (l.lookup k).getD 0

/-- `defaultdict` increment: `d[k] += v`. -/
def addQ (l : List (String × ℚ)) (k : String) (v : ℚ) :
    List (String × ℚ) :=
  updA l k (getQ l k + v)

/-! ### Statistics records (`BikeStats`, `GuideStats`, `PathStats`) -/

structure BikeStats where
  total_hours : ℚ := 0
  rental_hours : ℚ := 0
  maintenance_hours : ℚ := 0
  total_revenue : ℚ := 0
  booking_count : Nat := 0
  maintenance_cost : ℚ := 0
deriving Repr, DecidableEq

structure GuideStats where
  total_tours : Nat := 0
  total_participants : Nat := 0
  languages : List String := []
  regions : List String := []
  revenue_generated : ℚ := 0
deriving Repr, DecidableEq

structure PathStats where
  total_trips : Nat := 0
  total_participants : Nat := 0
  revenue_generated : ℚ := 0
  avg_satisfaction : ℚ := 0
  completion_rate : ℚ := 0
  popular_periods : List (String × Nat) := []
  regions : List String := []
deriving Repr, DecidableEq

/-- Set-insert used to model Python `set.add` / `set.update` (region and
language sets; the claims never inspect set order). -/
def setAdd (l : List String) (s : String) : List String :=
  if s ∈ l then l else l ++ [s]

def setUnion (l : List String) (r : List String) : List String :=
  r.foldl setAdd l

/-! ### Document loader and reference caches (`__init__`,
`_build_reference_cache`) -/

structure CyclingStats where
  root : Xml
  bikes : Option Xml
  bookings : Option Xml
  guides : Option Xml
  paths : Option Xml
  destinations : Option Xml
  clients : Option Xml
  maintenances : Option Xml
  tour_packages : Option Xml
  trip_groups : Option Xml
  package_path_cache : List (String × String)
  package_guide_cache : List (String × String)
  path_region_cache : List (String × List String)
  guide_langs_cache : List (String × List String)

/-- Cache pass over `tourPackage` elements: package→path and
package→guide. -/
def buildPackageCaches (tps : Option Xml) :
    List (String × String) × List (String × String) :=
  match tps with
  | none => ([], [])
  | some t =>
      (findAll (some t) "tourPackage").foldl
        (fun acc pkg =>
          match truthy (pkg.get "id") with
          | none => acc
          | some pid =>
              let pp := match truthy (findText (some pkg) "includedPathRef") with
                | some r => updA acc.1 pid r
                | none => acc.1
              let pg := match truthy (findText (some pkg) "assignedGuideRef") with
                | some r => updA acc.2 pid r
                | none => acc.2
              (pp, pg))
        ([], [])

/-- Region set of one `path` element: union of the regions of its
`startRef`/`endRef` destinations. -/
def pathRegions (dests : Xml) (path : Xml) : List String :=
  ["startRef", "endRef"].foldl
    (fun regions ref =>
      match truthy (findText (some path) ref) with
      | none => regions
      | some destId =>
          match findOne (some dests) "destination" (some ("id", destId)) with
          | none => regions
          | some dest =>
              match truthy (findText (some dest) "region") with
              | some region => setAdd regions region
              | none => regions)
    []

/-- Cache pass: path id → region set (omitted when no region resolves). -/
def buildPathRegionCache (paths dests : Option Xml) :
    List (String × List String) :=
  match paths, dests with
  | some ps, some ds =>
      (findAll (some ps) "path").foldl
        (fun acc path =>
          match truthy (path.get "id") with
          | none => acc
          | some pid =>
              let regions := pathRegions ds path
              if regions.isEmpty then acc else updA acc pid regions)
        []
  | _, _ => []

/-- Cache pass: guide id → language set (omitted when empty). -/
def buildGuideLangsCache (guides : Option Xml) :
    List (String × List String) :=
  match guides with
  | none => []
  | some gs =>
      (findAll (some gs) "guide").foldl
        (fun acc guide =>
          match truthy (guide.get "id") with
          | none => acc
          | some gid =>
              let langs :=
                match findOne (some guide) "languages" none with
                | none => []
                | some node =>
                    (findAll (some node) "language").foldl
                      (fun ls l =>
                        match l.text with
                        | some t => if t = "" then ls else setAdd ls t
                        | none => ls)
                      []
              if langs.isEmpty then acc else updA acc gid langs)
        []

/-- `CyclingStats.__init__` on a parsed root: bind the nine sections via
`find_section` and build the reference caches. -/
def load (root : Xml) : CyclingStats :=
  let bikes := findSection root "bikes"
  let bookings := findSection root "bookings"
  let guides := findSection root "guides"
  let paths := findSection root "paths"
  let destinations := findSection root "destinations"
  let clients := findSection root "clients"
  let maintenances := findSection root "maintenances"
  let tour_packages := findSection root "tourPackages"
  let trip_groups := findSection root "tripGroups"
  let pcaches := buildPackageCaches tour_packages
  { root := root
    bikes := bikes
    bookings := bookings
    guides := guides
    paths := paths
    destinations := destinations
    clients := clients
    maintenances := maintenances
    tour_packages := tour_packages
    trip_groups := trip_groups
    package_path_cache := pcaches.1
    package_guide_cache := pcaches.2
    path_region_cache := buildPathRegionCache paths destinations
    guide_langs_cache := buildGuideLangsCache guides }

/-! ### `monthly_bike_stats` -/

/-- Body of the inline-attribute maintenance loop
(`for m in self._findall(bike, 'maintenance')`).  The `try` block covers
date parsing, the duration conversion and the cost conversion: a failed
duration conversion leaves the entry untouched, a failed cost conversion
happens after the hours were already added. -/
def inlineMaintStep (startTs endTs : Int) (st : BikeStats) (m : Xml) :
    BikeStats :=
  match truthy (m.get "date") with
  | none => st
  | some d =>
      match parseDT d with
      | none => st
      | some md =>
          if startTs ≤ md.ts ∧ md.ts < endTs then
            -- float(m.get('duration', 0)): absent attribute defaults to 0
            match (match m.get "duration" with
                   | none => some (0 : ℚ)
                   | some s => parseNum s) with
            | none => st
            | some h =>
                let st := { st with
                  maintenance_hours := st.maintenance_hours + h }
                -- Decimal(m.get('cost', '0'))
                match parseNum ((m.get "cost").getD "0") with
                | none => st
                | some c => { st with
                    maintenance_cost := st.maintenance_cost + c }
          else st

/-- Body of the nested-record maintenance loop
(`for rec in self._findall(bike, 'record')`); duration defaults to 24
hours when the field is absent, and `Decimal(cost) if cost else
Decimal('0')` treats an empty cost as 0. -/
def recordMaintStep (startTs endTs : Int) (st : BikeStats) (rec : Xml) :
    BikeStats :=
  match truthy (findText (some rec) "date") with
  | none => st
  | some d =>
      match parseDT d with
      | none => st
      | some md =>
          if startTs ≤ md.ts ∧ md.ts < endTs then
            match (match findText (some rec) "duration" with
                   | none => some (24 : ℚ)
                   | some s => parseNum s) with
            | none => st
            | some h =>
                let st := { st with
                  maintenance_hours := st.maintenance_hours + h }
                match (match truthy (findText (some rec) "cost") with
                       | none => some (0 : ℚ)
                       | some s => parseNum s) with
                | none => st
                | some c => { st with
                    maintenance_cost := st.maintenance_cost + c }
          else st

/-- Per-bike initialization of the monthly statistics: a fresh
`BikeStats` fed through both maintenance loops. -/
def bikeMaintPass (startTs endTs : Int) (bike : Xml) : BikeStats :=
  let st : BikeStats := {}
  let st := (findAll (some bike) "maintenance").foldl
    (inlineMaintStep startTs endTs) st
  (findAll (some bike) "record").foldl (recordMaintStep startTs endTs) st

/-- Duration resolution of an in-window interval booking: an explicit
truthy `duration` field is converted by `float` with *no* enclosing
`try` (a parse failure raises), otherwise the duration is derived from
the begin/end timestamps inside a `try` (a failure there yields 0). -/
def bookingDuration (b : Xml) (bg en : String) : Except Unit ℚ :=
  match (truthy (b.get "duration")).orElse
      (fun _ => truthy (findText (some b) "duration")) with
  | some dv =>
      match parseNum dv with
      | some q => .ok q
      | none => .error ()
  | none =>
      .ok (match parseDT bg, parseDT en with
           | some bd2, some ed2 => ((ed2.ts - bd2.ts : Int) : ℚ) / 3600
           | _, _ => (0 : ℚ))

/-- Price resolution: `Decimal(totalPrice or price or '0')`, again with
no enclosing `try`. -/
def bookingPrice (b : Xml) : Except Unit ℚ :=
  match parseNum
      (((truthy (findText (some b) "totalPrice")).orElse
        (fun _ => truthy (findText (some b) "price"))).getD "0") with
  | some price => .ok price
  | none => .error ()

/-- The accumulation block of the bookings loop (reached only from the
interval branch): create the entry when missing, then add duration,
price and count. -/
def bookingAccum (stats : List (String × BikeStats)) (bid : String)
    (b : Xml) (bg en : String) :
    Except Unit (List (String × BikeStats)) :=
  let stats :=
    if (stats.lookup bid).isSome then stats else updA stats bid {}
  match bookingDuration b bg en with
  | .error e => .error e
  | .ok duration =>
      match bookingPrice b with
      | .error e => .error e
      | .ok price =>
          let cur := (stats.lookup bid).getD {}
          .ok (updA stats bid
            { cur with
              rental_hours := cur.rental_hours + duration
              total_revenue := cur.total_revenue + price
              booking_count := cur.booking_count + 1 })

/-- Body of the bookings loop of `monthly_bike_stats`.  An instant-form
booking (truthy `date`) is window-filtered but the accumulation block is
indented inside the `else` branch in the source, so it never contributes.
In the interval branch, `float(dur_val)` and `Decimal(price-text)` are
*not* inside any `try`, so a non-numeric duration or price raises out of
the whole method (`Except.error`). -/
def bookingStep (startTs endTs : Int)
    (stats : List (String × BikeStats)) (b : Xml) :
    Except Unit (List (String × BikeStats)) :=
  match (truthy (b.get "bikeId")).orElse
      (fun _ => truthy (findText (some b) "bikeRef")) with
  | none => .ok stats
  | some bid =>
      match (truthy (b.get "date")).orElse
          (fun _ => truthy (findText (some b) "date")) with
      | some _ =>
          -- instant branch: only filtering happens here; the source's
          -- accumulation block is unreachable from this branch
          .ok stats
      | none =>
          match truthy (findText (some b) "begin"),
              truthy (findText (some b) "end") with
          | some bg, some en =>
              match parseDT bg, parseDT en with
              | some bd, some ed =>
                  if bd.ts ≥ endTs ∨ ed.ts ≤ startTs then .ok stats
                  else bookingAccum stats bid b bg en
              | _, _ => .ok stats
          | _, _ => .ok stats

/-- Exception threading of the bookings loop: once raised, the loop is
aborted. -/
def bookingFoldStep (startTs endTs : Int)
    (acc : Except Unit (List (String × BikeStats))) (b : Xml) :
    Except Unit (List (String × BikeStats)) :=
  match acc with
  | .error e => .error e
  | .ok s => bookingStep startTs endTs s b

/-- Source `CyclingStats.monthly_bike_stats`. -/
def monthly_bike_stats (cs : CyclingStats) (year month : Nat) :
    Except Unit (List (String × BikeStats)) :=
  match cs.bikes with
  | none => .ok []
  | some bikes =>
      let startTs := (civil year month 1).ts
      let endTs := (if month = 12 then civil (year + 1) 1 1
                    else civil year (month + 1) 1).ts
      let stats := (findAll (some bikes) "bike").foldl
        (fun stats bike =>
          match truthy (bike.get "id") with
          | none => stats
          | some bid => updA stats bid (bikeMaintPass startTs endTs bike))
        []
      let folded :=
        match cs.bookings with
        | none => Except.ok stats
        | some bookings =>
            (findAll (some bookings) "booking").foldl
              (bookingFoldStep startTs endTs) (Except.ok stats)
      match folded with
      | .error e => .error e
      | .ok s =>
          .ok (s.map (fun kv =>
            (kv.1, { kv.2 with
              total_hours := kv.2.rental_hours + kv.2.maintenance_hours })))

/-! ### `calculate_occupancy_rates` -/

/-- The latest-end scan's per-booking candidate: first truthy of
`_find_text(b,'end')`, `b.get('end')`, `_find_text(b,'date')`,
`b.get('date')`, parsed; `none` when missing or unparseable. -/
def bookingEndCandidate (b : Xml) : Option Int :=
  match (truthy (findText (some b) "end")).orElse (fun _ =>
      (truthy (b.get "end")).orElse (fun _ =>
        (truthy (findText (some b) "date")).orElse (fun _ =>
          truthy (b.get "date")))) with
  | none => none
  | some s => (parseDT s).map DT.ts

/-- Latest resolvable booking end timestamp, if any. -/
def latestEnd (bookings : Option Xml) : Option Int :=
  match bookings with
  | none => none
  | some bs =>
      (findAll (some bs) "booking").foldl
        (fun latest b =>
          match bookingEndCandidate b with
          | none => latest
          | some t =>
              match latest with
              | none => some t
              | some l => if t > l then some t else some l)
        none

/-- End of the occupancy analysis window: latest booking end, else the
root's `currentDate` attribute, else the wall-clock instant `now`
(`datetime.now()` modelled as an explicit argument). -/
def occEnd (cs : CyclingStats) (now : Int) : Int :=
  match latestEnd cs.bookings with
  | some l => l
  | none =>
      match truthy (cs.root.get "currentDate") with
      | some cd =>
          match parseDT cd with
          | some t => t.ts
          | none => now
      | none => now

/-- Per-bike inline maintenance accumulation in the occupancy window;
note the duration default here is `24`, not `0`. -/
def occInlineStep (startTs endTs : Int) (bid : String)
    (acc : List (String × ℚ)) (m : Xml) : List (String × ℚ) :=
  match truthy (m.get "date") with
  | none => acc
  | some d =>
      match parseDT d with
      | none => acc
      | some md =>
          if startTs ≤ md.ts ∧ md.ts < endTs then
            match (match m.get "duration" with
                   | none => some (24 : ℚ)
                   | some s => parseNum s) with
            | none => acc
            | some h => addQ acc bid h
          else acc

/-- Top-level `maintenances/maintenance` accumulation: hours from a
truthy `hours` or `duration` field; the source applies no date filter
here. -/
def occTopStep (acc : List (String × ℚ)) (m : Xml) : List (String × ℚ) :=
  match (truthy (findText (some m) "bikeRef")).orElse (fun _ =>
      truthy (m.get "bikeRef")) with
  | none => acc
  | some bid =>
      match (truthy (findText (some m) "hours")).orElse (fun _ =>
          (truthy (m.get "hours")).orElse (fun _ =>
            (truthy (findText (some m) "duration")).orElse (fun _ =>
              truthy (m.get "duration")))) with
      | none => acc
      | some s =>
          match parseNum s with
          | none => acc
          | some v => addQ acc bid v

/-- The `maint` table of `calculate_occupancy_rates` (the source builds
it inside the bike loop, interleaved with seeding `occupancy`; the two
dicts are independent, so the passes are separated here). -/
def occMaintTable (cs : CyclingStats) (startTs endTs : Int) :
    List (String × ℚ) :=
  let maint :=
    match cs.bikes with
    | none => []
    | some bikes =>
        (findAll (some bikes) "bike").foldl
          (fun acc bike =>
            match truthy (bike.get "id") with
            | none => acc
            | some bid =>
                (findAll (some bike) "maintenance").foldl
                  (occInlineStep startTs endTs bid) acc)
          []
  match cs.maintenances with
  | none => maint
  | some ms => (findAll (some ms) "maintenance").foldl occTopStep maint

/-- Seeding of the `occupancy` dict: one zero entry per bike with a
truthy id. -/
def occInit (bikes : Xml) : List (String × ℚ) :=
  (findAll (some bikes) "bike").foldl
    (fun acc bike =>
      match truthy (bike.get "id") with
      | none => acc
      | some bid => updA acc bid 0)
    []

/-- The `used` table: clipped overlap hours of each booking's
begin/end interval with the window, only for bikes already seeded in
`occupancy`. -/
def occUsedStep (startTs endTs : Int) (occ : List (String × ℚ))
    (used : List (String × ℚ)) (b : Xml) : List (String × ℚ) :=
  match (truthy (b.get "bikeId")).orElse (fun _ =>
      truthy (findText (some b) "bikeRef")) with
  | none => used
  | some bid =>
      if (occ.lookup bid).isSome then
        match truthy (findText (some b) "begin"),
            truthy (findText (some b) "end") with
        | some bg, some en =>
            match parseDT bg, parseDT en with
            | some bd, some ed =>
                if bd.ts < endTs ∧ ed.ts > startTs then
                  addQ used bid
                    (((min ed.ts endTs - max bd.ts startTs : Int) : ℚ) / 3600)
                else used
            | _, _ => used
        | _, _ => used
      else used

/-- Source `CyclingStats.calculate_occupancy_rates`; `now` models the
`datetime.now()` fallback. -/
def calculate_occupancy_rates (cs : CyclingStats) (period_days : Nat)
    (now : Int) : List (String × ℚ) :=
  match cs.bikes with
  | none => []
  | some bikes =>
      let endTs := occEnd cs now
      let startTs := endTs - (period_days : Int) * 86400
      let total_hours : ℚ := (period_days : ℚ) * 24
      let occ := occInit bikes
      let maint := occMaintTable cs startTs endTs
      let used :=
        match cs.bookings with
        | none => []
        | some bs =>
            (findAll (some bs) "booking").foldl
              (occUsedStep startTs endTs occ) []
      occ.map (fun kv =>
        let avail := total_hours - getQ maint kv.1
        (kv.1, if 0 < avail then min 100 (getQ used kv.1 / avail * 100)
               else 0))

/-! ### `guide_performance` -/

/-- `self._find(self.tour_packages, "tourPackage[@id='...']")`. -/
def resolvePackage (cs : CyclingStats) (pid : String) : Option Xml :=
  findOne cs.tour_packages "tourPackage" (some ("id", pid))

/-- Guide initialization: one record per truthy guide id, seeded with
the cached language set. -/
def guideInit (cs : CyclingStats) (guides : Xml) :
    List (String × GuideStats) :=
  (findAll (some guides) "guide").foldl
    (fun acc g =>
      match truthy (g.get "id") with
      | none => acc
      | some gid =>
          updA acc gid { languages := (cs.guide_langs_cache.lookup gid).getD [] })
    []

/-- Body of the trip-group loop of `guide_performance`. -/
def guideStep (cs : CyclingStats) (startD endD : Int)
    (stats : List (String × GuideStats)) (group : Xml) :
    List (String × GuideStats) :=
  match truthy (findText (some group) "startDate") with
  | none => stats
  | some ds =>
      match parseDT ds with
      | none => stats
      | some td =>
          if ¬ (startD ≤ td.ts ∧ td.ts < endD) then stats
          else
            match truthy (findText (some group) "packageRef") with
            | none => stats
            | some pid =>
                match (truthy (cs.package_guide_cache.lookup pid)).orElse
                    (fun _ => truthy
                      (findText (resolvePackage cs pid) "assignedGuideRef")) with
                | none => stats
                | some gid =>
                    if (stats.lookup gid).isNone then stats
                    else
                      let cur := (stats.lookup gid).getD {}
                      let pcount := (findAll (some group) "participant").length
                      let cur :=
                        match (truthy (cs.package_path_cache.lookup pid)).orElse
                            (fun _ => truthy
                              (findText (resolvePackage cs pid) "includedPathRef")) with
                        | some pathId =>
                            let regs := (cs.path_region_cache.lookup pathId).getD []
                            { cur with regions := setUnion cur.regions regs }
                        | none => cur
                      let cur :=
                        match truthy (findText (resolvePackage cs pid) "price") with
                        | none => cur
                        | some ps =>
                            match parseNum ps with
                            | none => cur
                            | some p =>
                                let mult : ℚ :=
                                  if cs.clients.isNone then (pcount : ℚ) else 1
                                { cur with revenue_generated :=
                                    cur.revenue_generated + p * mult }
                      updA stats gid
                        { cur with
                          total_tours := cur.total_tours + 1
                          total_participants := cur.total_participants + pcount }

/-- Source `CyclingStats.guide_performance`. -/
def guide_performance (cs : CyclingStats) (startD endD : Int) :
    List (String × GuideStats) :=
  match cs.guides with
  | none => []
  | some gs =>
      let stats := guideInit cs gs
      match cs.trip_groups, cs.tour_packages with
      | some tgs, some _ =>
          (findAll (some tgs) "tripGroup").foldl (guideStep cs startD endD) stats
      | _, _ => stats

/-! ### `path_analytics` -/

def pad2 (n : Nat) : String :=
  if n < 10 then "0" ++ toString n else toString n

def pad4 (n : Nat) : String :=
  if n < 10 then "000" ++ toString n
  else if n < 100 then "00" ++ toString n
  else if n < 1000 then "0" ++ toString n
  else toString n

/-- `trip_date.strftime('%Y-%m')`. -/
def ymKey (t : DT) : String := pad4 t.year ++ "-" ++ pad2 t.month

def addN (l : List (String × Nat)) (k : String) (v : Nat) :
    List (String × Nat) :=
  updA l k ((l.lookup k).getD 0 + v)

/-- Running state of the `path_analytics` trip-group loop: the stats map
plus the local `ratings_sum`, `ratings_count`, `completed_count`
defaultdicts. -/
structure PAState where
  stats : List (String × PathStats)
  rsum : List (String × ℚ)
  rcount : List (String × Nat)
  ccount : List (String × Nat)

/-- Body of the trip-group loop of `path_analytics`. -/
def pathStep (cs : CyclingStats) (st : PAState) (group : Xml) : PAState :=
  match truthy (findText (some group) "startDate") with
  | none => st
  | some ds =>
      match parseDT ds with
      | none => st
      | some td =>
          let periodKey := ymKey td
          match truthy (findText (some group) "packageRef") with
          | none => st
          | some pid =>
              match resolvePackage cs pid with
              | none => st
              | some pkg =>
                  match truthy (findText (some pkg) "includedPathRef") with
                  | none => st
                  | some pathId =>
                      if (st.stats.lookup pathId).isNone then st
                      else
                        let cur := (st.stats.lookup pathId).getD {}
                        let pcount := (findAll (some group) "participant").length
                        let cur := { cur with
                          total_trips := cur.total_trips + 1
                          total_participants := cur.total_participants + pcount
                          popular_periods := updA cur.popular_periods periodKey
                            ((cur.popular_periods.lookup periodKey).getD 0 + 1) }
                        let cur :=
                          match truthy (findText (some pkg) "price") with
                          | none => cur
                          | some ps =>
                              match parseNum ps with
                              | none => cur
                              | some p =>
                                  let mult : ℚ :=
                                    if cs.clients.isNone then (pcount : ℚ) else 1
                                  { cur with revenue_generated :=
                                      cur.revenue_generated + p * mult }
                        let st1 := { st with stats := updA st.stats pathId cur }
                        let rr := (findAll (some group) "rating").foldl
                          (fun (p : List (String × ℚ) × List (String × Nat)) r =>
                            match r.text with
                            | none => p
                            | some t =>
                                if t = "" then p
                                else
                                  match parseNum t with
                                  | none => p
                                  | some v =>
                                      (addQ p.1 pathId v, addN p.2 pathId 1))
                          (st1.rsum, st1.rcount)
                        let st2 := { st1 with rsum := rr.1, rcount := rr.2 }
                        if findText (some group) "status" = some "completed" then
                          { st2 with ccount := addN st2.ccount pathId 1 }
                        else st2

/-- Source `CyclingStats.path_analytics`; `period_months` is unused by
the body (a label only). -/
def path_analytics (cs : CyclingStats) (period_months : Nat) :
    List (String × PathStats) :=
  match cs.paths with
  | none => []
  | some ps =>
      let _ := period_months
      let stats := (findAll (some ps) "path").foldl
        (fun acc p =>
          match truthy (p.get "id") with
          | none => acc
          | some pid =>
              let regs := (cs.path_region_cache.lookup pid).getD []
              updA acc pid { regions := setUnion [] regs })
        []
      let st :=
        match cs.trip_groups, cs.tour_packages with
        | some tgs, some _ =>
            (findAll (some tgs) "tripGroup").foldl (pathStep cs)
              ⟨stats, [], [], []⟩
        | _, _ => ⟨stats, [], [], []⟩
      st.stats.map (fun kv =>
        let p := kv.2
        let p : PathStats :=
          if 0 < (st.rcount.lookup kv.1).getD 0 then
            let avg := getQ st.rsum kv.1 / (((st.rcount.lookup kv.1).getD 0 : Nat) : ℚ)
            { p with avg_satisfaction := avg }
          else p
        let p : PathStats :=
          if 0 < p.total_trips then
            let cr := (((st.ccount.lookup kv.1).getD 0 : Nat) : ℚ) / (p.total_trips : ℚ) * 100
            { p with completion_rate := cr }
          else p
        (kv.1, p))

/-! ### Spec-side definitions used to compare code behaviour with the
spec's words -/

/-- Modelled from the spec (§4.1): the four-strategy single-result
element locator the spec describes — namespaced direct, namespaced
any-depth, plain direct, plain any-depth, first non-empty wins.  The
source's `_find` is compared against this. -/
def findOneSpec4 (element : Option Xml) (path : String)
    (pred : Option (String × String)) : Option Xml :=
  match element with
  | none => none
  | some e =>
      ((findDirect (some ctNs) path pred e).orElse fun _ =>
        ((findDesc (some ctNs) path pred e).orElse fun _ =>
          ((findDirect none path pred e).orElse fun _ =>
            findDesc none path pred e)))

/-- Hours contributed by one inline `maintenance` element to the
occupancy `maint` table (0 when filtered or unparseable); value-level
mirror of `occInlineStep`. -/
def occInlineHours (startTs endTs : Int) (m : Xml) : ℚ :=
  match truthy (m.get "date") with
  | none => 0
  | some d =>
      match parseDT d with
      | none => 0
      | some md =>
          if startTs ≤ md.ts ∧ md.ts < endTs then
            match (match m.get "duration" with
                   | none => some (24 : ℚ)
                   | some s => parseNum s) with
            | none => 0
            | some h => h
          else 0

/-- Key/hours pair contributed by one top-level `maintenance` element;
value-level mirror of `occTopStep`. -/
def occTopEntry (m : Xml) : Option (String × ℚ) :=
  match (truthy (findText (some m) "bikeRef")).orElse (fun _ =>
      truthy (m.get "bikeRef")) with
  | none => none
  | some bid =>
      match (truthy (findText (some m) "hours")).orElse (fun _ =>
          (truthy (m.get "hours")).orElse (fun _ =>
            (truthy (findText (some m) "duration")).orElse (fun _ =>
              truthy (m.get "duration")))) with
      | none => none
      | some s =>
          match parseNum s with
          | none => none
          | some v => some (bid, v)

/-- In-window inline maintenance hours of the bikes carrying id `bid`,
written as a plain sum (the claims' reading of "maintenance hours whose
date falls inside the window" for per-bike records). -/
def perBikeMaintWindowed (cs : CyclingStats) (startTs endTs : Int)
    (bid : String) : ℚ :=
  (((findAll cs.bikes "bike").filter
      (fun bike => truthy (bike.get "id") = some bid)).map
    (fun bike =>
      ((findAll (some bike) "maintenance").map
        (occInlineHours startTs endTs)).sum)).sum

/-- Hours of all top-level maintenance entries referencing `bid`,
with no date restriction (what the code accumulates). -/
def topMaintAll (cs : CyclingStats) (bid : String) : ℚ :=
  ((findAll cs.maintenances "maintenance").map
    (fun m =>
      match occTopEntry m with
      | some kv => if kv.1 = bid then kv.2 else 0
      | none => 0)).sum

/-- Modelled from the spec (claim C3): top-level maintenance hours
restricted to entries whose `date` field falls inside the window —
the restriction the claim asserts and the code does not apply. -/
def topMaintWindowed (cs : CyclingStats) (startTs endTs : Int)
    (bid : String) : ℚ :=
  ((findAll cs.maintenances "maintenance").map
    (fun m =>
      match occTopEntry m with
      | some kv =>
          if kv.1 = bid then
            match truthy (findText (some m) "date") with
            | none => 0
            | some d =>
                match parseDT d with
                | none => 0
                | some md =>
                    if startTs ≤ md.ts ∧ md.ts < endTs then kv.2 else 0
          else 0
      | none => 0)).sum

/-- Claim C3 as a proposition about a loaded model: per-bike available
hours always equal `period_days * 24` minus only the *in-window*
maintenance (per-bike and top-level alike). -/
def claimC3Prop (cs : CyclingStats) (days : Nat) (now : Int) : Prop :=
  ∀ bid : String,
    getQ (occMaintTable cs (occEnd cs now - (days : Int) * 86400)
        (occEnd cs now)) bid
      = perBikeMaintWindowed cs (occEnd cs now - (days : Int) * 86400)
          (occEnd cs now) bid
        + topMaintWindowed cs (occEnd cs now - (days : Int) * 86400)
            (occEnd cs now) bid

/-- The bike-entity id list of a loaded model (truthy `id` attributes of
`bike` elements, in document order). -/
def bikeIds (cs : CyclingStats) : List String :=
  (findAll cs.bikes "bike").filterMap (fun b => truthy (b.get "id"))

/-- Modelled from the spec (claim C6): a bike id has "at least one
maintenance or booking touch recorded for it" — a per-bike maintenance
record (either shape), a booking referencing the id, or a top-level
maintenance entry referencing the id. -/
def bikeTouched (cs : CyclingStats) (bid : String) : Bool :=
  ((findAll cs.bikes "bike").any (fun bike =>
      truthy (bike.get "id") == some bid &&
        (!(findAll (some bike) "maintenance").isEmpty ||
         !(findAll (some bike) "record").isEmpty)))
  || ((findAll cs.bookings "booking").any (fun b =>
      ((truthy (b.get "bikeId")).orElse (fun _ =>
        truthy (findText (some b) "bikeRef"))) == some bid))
  || ((findAll cs.maintenances "maintenance").any (fun m =>
      ((truthy (findText (some m) "bikeRef")).orElse (fun _ =>
        truthy (m.get "bikeRef"))) == some bid))

/-- Claim C6 as a proposition: the key set of `monthly_bike_stats` is
exactly the set of touched bike ids. -/
def claimC6Prop (cs : CyclingStats) (y m : Nat) : Prop :=
  ∀ l, monthly_bike_stats cs y m = .ok l →
    ∀ bid, bid ∈ l.map Prod.fst ↔ bikeTouched cs bid = true

/-! ### Namespace stripping (claim C7) -/

mutual
/-- Remove every namespace from a document, keeping the structure. -/
def stripNs : Xml → Xml
  | .elem _ t a tx cs => .elem none t a tx (stripList cs)

def stripList : List Xml → List Xml
  | [] => []
  | c :: cs => stripNs c :: stripList cs
end

mutual
/-- Every element of the document carries the default namespace. -/
def allCt : Xml → Bool
  | .elem ns _ _ _ cs => ns == some ctNs && allCtList cs

def allCtList : List Xml → Bool
  | [] => true
  | c :: cs => allCt c && allCtList cs
end

/-! ### Concrete documents used by counterexamples and witnesses -/

/-- Element without namespace, no text. -/
def el (tag : String) (attrs : List (String × String))
    (children : List Xml) : Xml :=
  .elem none tag attrs none children

/-- Leaf element without namespace, with text. -/
def txt (tag text : String) : Xml :=
  .elem none tag [] (some text) []

/-- Namespaced element. -/
def elC (tag : String) (attrs : List (String × String))
    (children : List Xml) : Xml :=
  .elem (some ctNs) tag attrs none children

/-- Namespaced leaf with text. -/
def txtC (tag text : String) : Xml :=
  .elem (some ctNs) tag [] (some text) []

/-- C1 failing input: one bike, one instant-form booking whose `date`
falls inside March 2024, with a price. -/
def exDoc1 : Xml := el "CyclingDB" []
  [el "bikes" [] [el "bike" [("id", "b1")] []],
   el "bookings" []
     [el "booking" [("bikeId", "b1"), ("date", "2024-03-15")]
       [txt "totalPrice" "50"]]]

/-- C2 failing input: one interval-form booking overlapping March 2024
whose `duration` attribute is non-numeric. -/
def exDoc2 : Xml := el "CyclingDB" []
  [el "bikes" [] [el "bike" [("id", "b1")] []],
   el "bookings" []
     [el "booking" [("bikeId", "b1"), ("duration", "abc")]
       [txt "begin" "2024-03-10T10:00", txt "end" "2024-03-10T14:00"]]]

/-- C3 counterexample input: a 72-hour in-window booking and a top-level
maintenance entry of 360 hours dated far outside every trailing window
ending 2024-03-04. -/
def exDoc3 : Xml := el "CyclingDB" []
  [el "bikes" [] [el "bike" [("id", "b1")] []],
   el "maintenances" []
     [el "maintenance" []
       [txt "bikeRef" "b1", txt "date" "2020-01-01", txt "hours" "360"]],
   el "bookings" []
     [el "booking" [("bikeId", "b1")]
       [txt "begin" "2024-03-01T00:00", txt "end" "2024-03-04T00:00"]]]

/-- C4 context: the target `inner` is namespaced and sits below a direct
child, so only an any-depth namespaced strategy can reach it. -/
def exDoc4 : Xml :=
  elC "CyclingDB" [] [elC "outer" [] [txtC "inner" "hello"]]

/-- C6 counterexample input: a bike entity with an id and no maintenance
or booking touch anywhere in the document. -/
def exDoc6 : Xml := el "CyclingDB" []
  [el "bikes" [] [el "bike" [("id", "b1")] []]]

/-- C7 witness document: fully namespaced nested `outer/inner` with text
`hello`. -/
def exDoc7 : Xml :=
  elC "CyclingDB" [] [elC "outer" [] [txtC "inner" "hello"]]

/-- C5/C8 witness document: one guide, one path, a package priced 100,
and a trip group with three participants; `withClients` appends an empty
`clients` section. -/
def tripDoc (withClients : Bool) : Xml := el "CyclingDB" []
  ([el "guides" [] [el "guide" [("id", "g1")] []],
    el "paths" [] [el "path" [("id", "p1")] []],
    el "tourPackages" []
      [el "tourPackage" [("id", "pkg1")]
        [txt "includedPathRef" "p1", txt "assignedGuideRef" "g1",
         txt "price" "100"]],
    el "tripGroups" []
      [el "tripGroup" []
        [txt "startDate" "2024-03-10", txt "packageRef" "pkg1",
         txt "participant" "a", txt "participant" "b",
         txt "participant" "c"]]]
   ++ (if withClients then [el "clients" [] []] else []))

/-- C10 witness input: a single bike `b1` plus an interval booking in
March 2024 referencing the unknown id `ghost`. -/
def exDoc10 : Xml := el "CyclingDB" []
  [el "bikes" [] [el "bike" [("id", "b1")] []],
   el "bookings" []
     [el "booking" [("bikeId", "ghost")]
       [txt "begin" "2024-03-10T10:00", txt "end" "2024-03-10T14:00",
        txt "totalPrice" "10"]]]

/-- C9 witness record: an inline-attribute maintenance element with a
date and no duration attribute. -/
def exMaint9 : Xml := el "maintenance" [("date", "2024-03-05")] []

/-- Start of the queried month window, as computed by
`monthly_bike_stats`. -/
def monthStartTs (y m : Nat) : Int := (civil y m 1).ts

/-- End of the queried month window, as computed by
`monthly_bike_stats`. -/
def monthEndTs (y m : Nat) : Int :=
  (if m = 12 then civil (y + 1) 1 1 else civil y (m + 1) 1).ts

/-- Claim C10's monthly half as a proposition: *every* in-window
interval-form booking referencing an id that matches no bike entity
forces a stats entry keyed by that id. -/
def claimC10Prop (cs : CyclingStats) (y m : Nat) : Prop :=
  ∀ B b bid bg en bd ed,
    cs.bookings = some B →
    b ∈ findAll (some B) "booking" →
    (truthy (b.get "bikeId")).orElse
      (fun _ => truthy (findText (some b) "bikeRef")) = some bid →
    (truthy (b.get "date")).orElse
      (fun _ => truthy (findText (some b) "date")) = none →
    truthy (findText (some b) "begin") = some bg →
    truthy (findText (some b) "end") = some en →
    parseDT bg = some bd →
    parseDT en = some ed →
    ¬ (bd.ts ≥ monthEndTs y m ∨ ed.ts ≤ monthStartTs y m) →
    bid ∉ bikeIds cs →
    ∀ l, monthly_bike_stats cs y m = .ok l → bid ∈ l.map Prod.fst

/-- C10 counterexample input: the same unknown-id interval booking as
`exDoc10`, but the document has no `bikes` section at all, so
`monthly_bike_stats` returns an empty map without scanning bookings. -/
def exDoc10b : Xml := el "CyclingDB" []
  [el "bookings" []
     [el "booking" [("bikeId", "ghost")]
       [txt "begin" "2024-03-10T10:00", txt "end" "2024-03-10T14:00",
        txt "totalPrice" "10"]]]

/-! ## Lemmas about the dictionary model -/

theorem lookup_updA_self {β : Type} (l : List (String × β)) (k : String)
    (v : β) : (updA l k v).lookup k = some v := by
  induction l with
  | nil => simp [updA, List.lookup]
  | cons hd t ih =>
      obtain ⟨k', v'⟩ := hd
      by_cases h : k' = k
      · subst h; simp [updA, List.lookup]
      · simp only [updA, if_neg h, List.lookup]
        have : (k == k') = false := by
          simp [beq_eq_false_iff_ne]; exact fun he => h he.symm
        simp [this, ih]

theorem lookup_updA_ne {β : Type} (l : List (String × β)) (k k' : String)
    (v : β) (h : k' ≠ k) : (updA l k v).lookup k' = l.lookup k' := by
  have hb : (k' == k) = false := by simp [beq_eq_false_iff_ne, h]
  induction l with
  | nil => simp [updA, List.lookup, hb]
  | cons hd t ih =>
      obtain ⟨k₀, v₀⟩ := hd
      by_cases h0 : k₀ = k
      · subst h0
        simp [updA, List.lookup, hb]
      · simp only [updA, if_neg h0, List.lookup]
        by_cases h1 : k' = k₀
        · simp [h1]
        · have hb1 : (k' == k₀) = false := by simp [beq_eq_false_iff_ne, h1]
          simp [hb1, ih]

theorem getQ_addQ (l : List (String × ℚ)) (k k' : String) (v : ℚ) :
    getQ (addQ l k v) k' = getQ l k' + (if k' = k then v else 0) := by
  by_cases h : k' = k
  · subst h; simp [addQ, getQ, lookup_updA_self]
  · simp [addQ, getQ, lookup_updA_ne _ _ _ _ h, h]

theorem mem_keys_updA {β : Type} (l : List (String × β)) (k a : String)
    (v : β) : a ∈ (updA l k v).map Prod.fst ↔ a = k ∨ a ∈ l.map Prod.fst := by
  induction l with
  | nil => simp [updA]
  | cons hd t ih =>
      obtain ⟨k', v'⟩ := hd
      by_cases h : k' = k
      · subst h; simp [updA]
      · simp only [updA, if_neg h, List.map, List.mem_cons, ih]
        tauto

theorem lookup_isSome_iff {β : Type} (l : List (String × β)) (k : String) :
    (l.lookup k).isSome = true ↔ k ∈ l.map Prod.fst := by
  induction l with
  | nil => simp [List.lookup]
  | cons hd t ih =>
      obtain ⟨k', v'⟩ := hd
      by_cases h : k = k'
      · subst h; simp [List.lookup]
      · have : (k == k') = false := by simp [beq_eq_false_iff_ne, h]
        simp [List.lookup, this, ih, h]

/-! ## Claim C1 -/

/-- C1 (code_bug, failing-input evaluation): in the source the
accumulation block of the bookings loop is indented inside the
interval (`else`) branch, so an instant-form booking whose `date` falls
inside the queried month contributes nothing: on a document with one
bike and one in-window dated booking priced 50, `monthly_bike_stats`
returns a zero record — booking count 0 and revenue 0 — where the claim
requires count 1 and revenue 50. -/
theorem C1_instant_booking_not_counted :
    monthly_bike_stats (load exDoc1) 2024 3 =
      .ok [("b1",
        { total_hours := 0, rental_hours := 0, maintenance_hours := 0,
          total_revenue := 0, booking_count := 0, maintenance_cost := 0 })] := by
  with_unfolding_all rfl

/-! ## Claim C2 -/

/-- C2 (code_bug, failing-input evaluation): the conversions
`float(dur_val)` and `Decimal(price text)` in the bookings loop are not
wrapped in any `try`, so a non-numeric `duration` on an in-window
interval booking raises out of `monthly_bike_stats` instead of being
skipped: the embedding returns the raised-exception value. -/
theorem C2_nonnumeric_duration_raises :
    monthly_bike_stats (load exDoc2) 2024 3 = .error () := rfl

/-! ## Claim C4 -/

/-- C4 (counterexample): the element-form locator `_find` does not
implement the four-strategy chain the claim describes — on a document
whose namespaced target sits below a direct child, the four-strategy
chain finds the element while `_find` returns nothing. -/
theorem C4_counterexample :
    findOne (some exDoc4) "inner" none ≠
      findOneSpec4 (some exDoc4) "inner" none := by
  have h1 : findOne (some exDoc4) "inner" none = none := rfl
  have h2 : findOneSpec4 (some exDoc4) "inner" none =
      some (txtC "inner" "hello") := rfl
  rw [h1, h2]
  exact fun h => Option.noConfusion h

/-- C4 (amended): the text-form locator `_find_text` tries the four
strategies in the claimed order, but the element form `_find` tries only
three (namespaced direct, plain direct, plain any-depth) and lacks the
namespaced any-depth strategy: whenever the only match is a namespaced
descendant that is not a direct child, the text form finds its text and
the element form returns nothing. -/
theorem C4_locator_strategies (e : Xml) (path : String) (t : Xml)
    (h1 : findDirect (some ctNs) path none e = none)
    (h2 : findDirect none path none e = none)
    (h3 : findDesc none path none e = none)
    (h4 : findDesc (some ctNs) path none e = some t) :
    findOne (some e) path none = none ∧
    findText (some e) path = some (t.text.getD "") := by
  constructor
  · simp [findOne, h1, h2, h3, Option.orElse]
  · simp [findText, findtextDirect, findtextDesc, h1, h2, h3, h4,
      Option.orElse]

/-- C4 witness: the amended statement applied to the concrete document
`exDoc4`. -/
theorem C4_locator_strategies_witness :
    findOne (some exDoc4) "inner" none = none ∧
    findText (some exDoc4) "inner" = some "hello" := by
  have h := C4_locator_strategies exDoc4 "inner" (txtC "inner" "hello")
    rfl rfl rfl rfl
  simpa using h

/-! ## Key-set lemmas for the aggregation folds -/

theorem keys_mono_foldl {α β : Type}
    (f : List (String × β) → α → List (String × β))
    (hf : ∀ s a k, k ∈ s.map Prod.fst → k ∈ (f s a).map Prod.fst)
    (xs : List α) (s : List (String × β)) (k : String)
    (h : k ∈ s.map Prod.fst) : k ∈ (xs.foldl f s).map Prod.fst := by
  induction xs generalizing s with
  | nil => exact h
  | cons a t ih => exact ih _ (hf _ _ _ h)

theorem mem_keys_foldl_of_step {α β : Type}
    (f : List (String × β) → α → List (String × β))
    (hf : ∀ s a k, k ∈ s.map Prod.fst → k ∈ (f s a).map Prod.fst)
    (xs : List α) (x : α) (hx : x ∈ xs) (k : String)
    (hstep : ∀ s, k ∈ (f s x).map Prod.fst)
    (s : List (String × β)) : k ∈ (xs.foldl f s).map Prod.fst := by
  obtain ⟨l1, l2, rfl⟩ := List.append_of_mem hx
  rw [List.foldl_append, List.foldl_cons]
  exact keys_mono_foldl f hf l2 _ k (hstep _)

/-- Folding the bookings loop from a raised exception stays raised. -/
theorem foldl_bookingFoldStep_error (startTs endTs : Int) (xs : List Xml)
    (e : Unit) :
    xs.foldl (bookingFoldStep startTs endTs) (.error e) = .error e := by
  induction xs with
  | nil => rfl
  | cons b t ih => simpa [bookingFoldStep] using ih

/-- A successful accumulation block keeps all existing keys and ensures
the booking's bike id is a key. -/
theorem bookingAccum_ok_keys (s : List (String × BikeStats))
    (bid : String) (b : Xml) (bg en : String)
    (s' : List (String × BikeStats))
    (h : bookingAccum s bid b bg en = .ok s') :
    (∀ k, k ∈ s.map Prod.fst → k ∈ s'.map Prod.fst) ∧
      bid ∈ s'.map Prod.fst := by
  unfold bookingAccum at h
  cases hd : bookingDuration b bg en with
  | error e => simp only [hd] at h; exact Except.noConfusion h
  | ok duration =>
      cases hp : bookingPrice b with
      | error e => simp only [hd, hp] at h; exact Except.noConfusion h
      | ok price =>
          simp only [hd, hp, Except.ok.injEq] at h
          subst h
          constructor
          · intro k hk
            refine (mem_keys_updA _ _ _ _).mpr (Or.inr ?_)
            split
            · exact hk
            · exact (mem_keys_updA _ _ _ _).mpr (Or.inr hk)
          · exact (mem_keys_updA _ _ _ _).mpr (Or.inl rfl)

/-- Every `.ok` outcome of the bookings-loop body keeps the existing
keys. -/
theorem bookingStep_keys_mono (startTs endTs : Int)
    (s : List (String × BikeStats)) (b : Xml)
    (s' : List (String × BikeStats))
    (h : bookingStep startTs endTs s b = .ok s')
    (k : String) (hk : k ∈ s.map Prod.fst) : k ∈ s'.map Prod.fst := by
  unfold bookingStep at h
  split at h
  · cases h; exact hk
  · split at h
    · cases h; exact hk
    · split at h
      · split at h
        · split at h
          · cases h; exact hk
          · exact (bookingAccum_ok_keys _ _ _ _ _ _ h).1 k hk
        · cases h; exact hk
      · cases h; exact hk

theorem bookingFold_keys_mono (startTs endTs : Int) (xs : List Xml)
    (s l : List (String × BikeStats))
    (h : xs.foldl (bookingFoldStep startTs endTs) (.ok s) = .ok l)
    (k : String) (hk : k ∈ s.map Prod.fst) : k ∈ l.map Prod.fst := by
  induction xs generalizing s with
  | nil => cases h; exact hk
  | cons b t ih =>
      simp only [List.foldl_cons] at h
      cases hb : bookingStep startTs endTs s b with
      | error e =>
          rw [show bookingFoldStep startTs endTs (.ok s) b
              = .error e by simpa [bookingFoldStep] using hb] at h
          rw [foldl_bookingFoldStep_error startTs endTs t e] at h
          cases h
      | ok s1 =>
          rw [show bookingFoldStep startTs endTs (.ok s) b
              = .ok s1 by simpa [bookingFoldStep] using hb] at h
          exact ih s1 h (bookingStep_keys_mono _ _ _ _ _ hb k hk)

theorem keys_map_snd {β : Type} (s : List (String × β))
    (g : String × β → β) :
    (s.map (fun kv => (kv.1, g kv))).map Prod.fst = s.map Prod.fst := by
  induction s with
  | nil => rfl
  | cons a t ih => simp [ih]

/-! ## Claim C6 -/

/-- C6 (counterexample): on a document whose only bike `b1` has no
maintenance or booking touch whatsoever, `monthly_bike_stats` still
returns an entry keyed `b1`, so the key set is not the set of touched
bike ids. -/
theorem C6_counterexample : ¬ claimC6Prop (load exDoc6) 2024 3 := by
  intro h
  have hres : monthly_bike_stats (load exDoc6) 2024 3 =
      .ok [("b1",
        { total_hours := 0, rental_hours := 0, maintenance_hours := 0,
          total_revenue := 0, booking_count := 0, maintenance_cost := 0 })] := by
    with_unfolding_all rfl
  have hmem := (h _ hres "b1").mp (by simp)
  have ht : bikeTouched (load exDoc6) "b1" = false := by
    with_unfolding_all rfl
  rw [ht] at hmem
  exact absurd hmem (by decide)

/-- C6 (amended): the key set of `monthly_bike_stats` contains the id of
*every* bike entity carrying a truthy id attribute, whether or not any
maintenance record or booking touches it (bikes lacking an id are
skipped; interval bookings may add further keys). -/
theorem C6_bike_entity_key (cs : CyclingStats) (y m : Nat)
    (bikes bike : Xml) (bid : String) (l : List (String × BikeStats))
    (hb : cs.bikes = some bikes)
    (hmem : bike ∈ findAll (some bikes) "bike")
    (hid : truthy (bike.get "id") = some bid)
    (hres : monthly_bike_stats cs y m = .ok l) :
    bid ∈ l.map Prod.fst := by
  unfold monthly_bike_stats at hres
  rw [hb] at hres
  simp only [] at hres
  have hkey : bid ∈ ((findAll (some bikes) "bike").foldl
      (fun stats bike =>
        match truthy (bike.get "id") with
        | none => stats
        | some bid =>
            updA stats bid
              (bikeMaintPass (civil y m 1).ts
                (if m = 12 then civil (y + 1) 1 1 else civil y (m + 1) 1).ts
                bike))
      []).map Prod.fst := by
    refine mem_keys_foldl_of_step _ ?_ _ bike hmem bid ?_ []
    · intro s a k hk
      cases ha : truthy (a.get "id") with
      | none => simpa [ha] using hk
      | some v =>
          simp only [ha]
          exact (mem_keys_updA _ _ _ _).mpr (Or.inr hk)
    · intro s
      simp only [hid]
      exact (mem_keys_updA _ _ _ _).mpr (Or.inl rfl)
  cases hbk : cs.bookings with
  | none =>
      rw [hbk] at hres
      simp only [Except.ok.injEq] at hres
      subst hres
      rw [keys_map_snd]
      exact hkey
  | some bookings =>
      rw [hbk] at hres
      simp only [] at hres
      cases hfold : (findAll (some bookings) "booking").foldl
          (bookingFoldStep (civil y m 1).ts
            (if m = 12 then civil (y + 1) 1 1 else civil y (m + 1) 1).ts)
          (.ok ((findAll (some bikes) "bike").foldl
            (fun stats bike =>
              match truthy (bike.get "id") with
              | none => stats
              | some bid =>
                  updA stats bid
                    (bikeMaintPass (civil y m 1).ts
                      (if m = 12 then civil (y + 1) 1 1
                       else civil y (m + 1) 1).ts
                      bike))
            [])) with
      | error e =>
          rw [hfold] at hres
          exact Except.noConfusion hres
      | ok s1 =>
          rw [hfold] at hres
          simp only [Except.ok.injEq] at hres
          subst hres
          rw [keys_map_snd]
          exact bookingFold_keys_mono _ _ _ _ _ hfold bid hkey

/-- C6 witness: the amended statement applied to the untouched-bike
document `exDoc6`. -/
theorem C6_bike_entity_key_witness :
    "b1" ∈ (([("b1",
      ({ total_hours := 0, rental_hours := 0, maintenance_hours := 0,
         total_revenue := 0, booking_count := 0,
         maintenance_cost := 0 } : BikeStats))] :
      List (String × BikeStats)).map Prod.fst) := by
  refine C6_bike_entity_key (load exDoc6) 2024 3
    (el "bikes" [] [el "bike" [("id", "b1")] []])
    (el "bike" [("id", "b1")] []) "b1" _ ?_ ?_ ?_ ?_
  · with_unfolding_all rfl
  · have : findAll (some (el "bikes" [] [el "bike" [("id", "b1")] []]))
        "bike" = [el "bike" [("id", "b1")] []] := by
      with_unfolding_all rfl
    rw [this]
    exact List.mem_singleton.mpr rfl
  · with_unfolding_all rfl
  · with_unfolding_all rfl

/-! ## Claim C10 -/

theorem keys_foldl_updA_zero (xs : List Xml) (acc : List (String × ℚ))
    (k : String) :
    (k ∈ (xs.foldl
        (fun acc bike =>
          match truthy (bike.get "id") with
          | none => acc
          | some bid => updA acc bid 0)
        acc).map Prod.fst) ↔
      k ∈ acc.map Prod.fst ∨
        k ∈ xs.filterMap (fun b => truthy (b.get "id")) := by
  induction xs generalizing acc with
  | nil => simp
  | cons b t ih =>
      cases hb : truthy (b.get "id") with
      | none => simp [List.foldl_cons, hb, ih, List.filterMap_cons]
      | some v =>
          simp only [List.foldl_cons, hb, List.filterMap_cons]
          rw [ih]
          simp only [mem_keys_updA, List.mem_cons]
          tauto

/-- With an interval-form booking's resolution hypotheses in hand, the
loop body reduces to the accumulation block. -/
theorem bookingStep_interval (startTs endTs : Int)
    (s : List (String × BikeStats)) (b : Xml) (bid bg en : String)
    (bd ed : DT)
    (hbid : (truthy (b.get "bikeId")).orElse
      (fun _ => truthy (findText (some b) "bikeRef")) = some bid)
    (hnod : (truthy (b.get "date")).orElse
      (fun _ => truthy (findText (some b) "date")) = none)
    (hbg : truthy (findText (some b) "begin") = some bg)
    (hen : truthy (findText (some b) "end") = some en)
    (hpb : parseDT bg = some bd)
    (hpe : parseDT en = some ed)
    (hov : ¬ (bd.ts ≥ endTs ∨ ed.ts ≤ startTs)) :
    bookingStep startTs endTs s b = bookingAccum s bid b bg en := by
  unfold bookingStep
  simp only [hbid, hnod, hbg, hen, hpb, hpe]
  rw [if_neg hov]

/-- C10 (counterexample): on a document carrying the in-window
unknown-id interval booking but no `bikes` section,
`monthly_bike_stats` returns an empty map — no entry is created for the
unknown id, refuting the claim's universal monthly half. -/
theorem C10_counterexample : ¬ claimC10Prop (load exDoc10b) 2024 3 := by
  intro h
  have hfa : findAll (some (el "bookings" []
      [el "booking" [("bikeId", "ghost")]
        [txt "begin" "2024-03-10T10:00", txt "end" "2024-03-10T14:00",
         txt "totalPrice" "10"]])) "booking" =
      [el "booking" [("bikeId", "ghost")]
        [txt "begin" "2024-03-10T10:00", txt "end" "2024-03-10T14:00",
         txt "totalPrice" "10"]] := by
    with_unfolding_all rfl
  have hm := h _ (el "booking" [("bikeId", "ghost")]
      [txt "begin" "2024-03-10T10:00", txt "end" "2024-03-10T14:00",
       txt "totalPrice" "10"])
    "ghost" "2024-03-10T10:00" "2024-03-10T14:00"
    ⟨2024, 3, 10, 10, 0, 0⟩ ⟨2024, 3, 10, 14, 0, 0⟩
    (by with_unfolding_all rfl)
    (by rw [hfa]; exact List.mem_singleton.mpr rfl)
    (by with_unfolding_all rfl)
    (by with_unfolding_all rfl)
    (by with_unfolding_all rfl)
    (by with_unfolding_all rfl)
    (by with_unfolding_all rfl)
    (by with_unfolding_all rfl)
    (by with_unfolding_all decide)
    (by
      have : bikeIds (load exDoc10b) = [] := by with_unfolding_all rfl
      rw [this]
      exact List.not_mem_nil _)
    [] (by with_unfolding_all rfl)
  simp at hm

/-- C10 (amended): provided the document has a `bikes` section, every
in-window interval-form booking forces a stats entry keyed by the id it
references (known or not, so the monthly key set can strictly exceed the
bike-entity ids), while the occupancy key set is always exactly the set
of bike-entity ids (bookings for unknown ids are ignored there). -/
theorem C10_unknown_booking_keys (cs : CyclingStats) (y m days : Nat)
    (now : Int) (bikes B b : Xml) (bid bg en : String) (bd ed : DT)
    (l : List (String × BikeStats))
    (hbikes : cs.bikes = some bikes)
    (hB : cs.bookings = some B)
    (hmem : b ∈ findAll (some B) "booking")
    (hbid : (truthy (b.get "bikeId")).orElse
      (fun _ => truthy (findText (some b) "bikeRef")) = some bid)
    (hnod : (truthy (b.get "date")).orElse
      (fun _ => truthy (findText (some b) "date")) = none)
    (hbg : truthy (findText (some b) "begin") = some bg)
    (hen : truthy (findText (some b) "end") = some en)
    (hpb : parseDT bg = some bd)
    (hpe : parseDT en = some ed)
    (hov : ¬ (bd.ts ≥ monthEndTs y m ∨ ed.ts ≤ monthStartTs y m))
    (hres : monthly_bike_stats cs y m = .ok l) :
    bid ∈ l.map Prod.fst ∧
      (∀ k, k ∈ (calculate_occupancy_rates cs days now).map Prod.fst ↔
        k ∈ bikeIds cs) := by
  unfold monthStartTs monthEndTs at hov
  constructor
  · unfold monthly_bike_stats at hres
    rw [hbikes] at hres
    simp only [] at hres
    rw [hB] at hres
    simp only [] at hres
    obtain ⟨l1, l2, hsplit⟩ := List.append_of_mem hmem
    rw [hsplit, List.foldl_append, List.foldl_cons] at hres
    cases hpre : l1.foldl
        (bookingFoldStep (civil y m 1).ts
          (if m = 12 then civil (y + 1) 1 1 else civil y (m + 1) 1).ts)
        (.ok ((findAll (some bikes) "bike").foldl
          (fun stats bike =>
            match truthy (bike.get "id") with
            | none => stats
            | some bid =>
                updA stats bid
                  (bikeMaintPass (civil y m 1).ts
                    (if m = 12 then civil (y + 1) 1 1
                     else civil y (m + 1) 1).ts
                    bike))
          [])) with
    | error e =>
        rw [hpre] at hres
        rw [show bookingFoldStep (civil y m 1).ts
            (if m = 12 then civil (y + 1) 1 1 else civil y (m + 1) 1).ts
            (.error e) b = .error e from rfl] at hres
        rw [foldl_bookingFoldStep_error] at hres
        exact Except.noConfusion hres
    | ok smid =>
        rw [hpre] at hres
        rw [show bookingFoldStep (civil y m 1).ts
            (if m = 12 then civil (y + 1) 1 1 else civil y (m + 1) 1).ts
            (.ok smid) b
            = bookingStep (civil y m 1).ts
              (if m = 12 then civil (y + 1) 1 1 else civil y (m + 1) 1).ts
              smid b from rfl] at hres
        rw [bookingStep_interval _ _ smid b bid bg en bd ed
          hbid hnod hbg hen hpb hpe hov] at hres
        cases hacc : bookingAccum smid bid b bg en with
        | error e =>
            rw [hacc] at hres
            rw [foldl_bookingFoldStep_error] at hres
            exact Except.noConfusion hres
        | ok sb =>
            rw [hacc] at hres
            cases hfold : l2.foldl
                (bookingFoldStep (civil y m 1).ts
                  (if m = 12 then civil (y + 1) 1 1
                   else civil y (m + 1) 1).ts)
                (.ok sb) with
            | error e =>
                rw [hfold] at hres
                exact Except.noConfusion hres
            | ok sfin =>
                rw [hfold] at hres
                simp only [Except.ok.injEq] at hres
                subst hres
                rw [keys_map_snd]
                exact bookingFold_keys_mono _ _ _ _ _ hfold bid
                  ((bookingAccum_ok_keys _ _ _ _ _ _ hacc).2)
  · intro k
    unfold calculate_occupancy_rates
    rw [hbikes]
    simp only []
    rw [keys_map_snd]
    unfold occInit
    rw [keys_foldl_updA_zero]
    unfold bikeIds
    rw [hbikes]
    simp

/-- C10 witness: the amended statement applied to `exDoc10`, whose
`ghost` booking references no bike entity. -/
theorem C10_unknown_booking_keys_witness :
    ("ghost" ∈ ([("b1",
        ({ total_hours := 0, rental_hours := 0, maintenance_hours := 0,
           total_revenue := 0, booking_count := 0,
           maintenance_cost := 0 } : BikeStats)),
      ("ghost",
        ({ total_hours := 4, rental_hours := 4, maintenance_hours := 0,
           total_revenue := 10, booking_count := 1,
           maintenance_cost := 0 } : BikeStats))] :
        List (String × BikeStats)).map Prod.fst) ∧
      (∀ k, k ∈ (calculate_occupancy_rates (load exDoc10) 30 0).map
          Prod.fst ↔ k ∈ bikeIds (load exDoc10)) := by
  refine C10_unknown_booking_keys (load exDoc10) 2024 3 30 0
    (el "bikes" [] [el "bike" [("id", "b1")] []])
    (el "bookings" []
      [el "booking" [("bikeId", "ghost")]
        [txt "begin" "2024-03-10T10:00", txt "end" "2024-03-10T14:00",
         txt "totalPrice" "10"]])
    (el "booking" [("bikeId", "ghost")]
      [txt "begin" "2024-03-10T10:00", txt "end" "2024-03-10T14:00",
       txt "totalPrice" "10"])
    "ghost" "2024-03-10T10:00" "2024-03-10T14:00"
    ⟨2024, 3, 10, 10, 0, 0⟩ ⟨2024, 3, 10, 14, 0, 0⟩ _
    ?_ ?_ ?_ ?_ ?_ ?_ ?_ ?_ ?_ ?_ ?_
  · with_unfolding_all rfl
  · with_unfolding_all rfl
  · have : findAll (some (el "bookings" []
        [el "booking" [("bikeId", "ghost")]
          [txt "begin" "2024-03-10T10:00", txt "end" "2024-03-10T14:00",
           txt "totalPrice" "10"]])) "booking" =
        [el "booking" [("bikeId", "ghost")]
          [txt "begin" "2024-03-10T10:00", txt "end" "2024-03-10T14:00",
           txt "totalPrice" "10"]] := by
      with_unfolding_all rfl
    rw [this]
    exact List.mem_singleton.mpr rfl
  · with_unfolding_all rfl
  · with_unfolding_all rfl
  · with_unfolding_all rfl
  · with_unfolding_all rfl
  · with_unfolding_all rfl
  · with_unfolding_all rfl
  · with_unfolding_all decide
  · with_unfolding_all rfl

/-! ## Claim C3 -/

theorem getQ_occInlineStep (startTs endTs : Int) (bid : String)
    (acc : List (String × ℚ)) (m : Xml) (k : String) :
    getQ (occInlineStep startTs endTs bid acc m) k =
      getQ acc k + (if k = bid then occInlineHours startTs endTs m else 0) := by
  unfold occInlineStep occInlineHours
  cases htr : truthy (m.get "date") with
  | none => simp [htr]
  | some d =>
      cases hp : parseDT d with
      | none => simp [hp]
      | some md =>
          by_cases hw : startTs ≤ md.ts ∧ md.ts < endTs
          · simp only [hp, if_pos hw]
            cases hd : (match m.get "duration" with
                        | none => some (24 : ℚ)
                        | some s => parseNum s) with
            | none => simp
            | some h => simp [getQ_addQ]
          · simp [hp, hw]

theorem getQ_foldl_occInline (startTs endTs : Int) (bid : String)
    (ms : List Xml) (acc : List (String × ℚ)) (k : String) :
    getQ (ms.foldl (occInlineStep startTs endTs bid) acc) k =
      getQ acc k +
        (if k = bid then (ms.map (occInlineHours startTs endTs)).sum
         else 0) := by
  induction ms generalizing acc with
  | nil => simp
  | cons mm t ih =>
      rw [List.foldl_cons, ih, getQ_occInlineStep]
      by_cases hk : k = bid
      · simp [hk]; ring
      · simp [hk]

theorem getQ_occMaint_bikes (startTs endTs : Int) (bikes : List Xml)
    (acc : List (String × ℚ)) (k : String) :
    getQ (bikes.foldl
        (fun acc bike =>
          match truthy (bike.get "id") with
          | none => acc
          | some bid =>
              (findAll (some bike) "maintenance").foldl
                (occInlineStep startTs endTs bid) acc)
        acc) k =
      getQ acc k +
        ((bikes.filter (fun bike => truthy (bike.get "id") = some k)).map
          (fun bike =>
            ((findAll (some bike) "maintenance").map
              (occInlineHours startTs endTs)).sum)).sum := by
  induction bikes generalizing acc with
  | nil => simp
  | cons bike t ih =>
      rw [List.foldl_cons]
      cases hid : truthy (bike.get "id") with
      | none =>
          simp only [hid]
          rw [ih]
          simp [List.filter_cons, hid]
      | some v =>
          simp only [hid]
          rw [ih, getQ_foldl_occInline]
          by_cases hv : v = k
          · subst hv
            simp [List.filter_cons, hid]
            ring
          · have hkv : ¬ (k = v) := fun he => hv he.symm
            simp [List.filter_cons, hid, hv, hkv]

theorem getQ_occTopStep (acc : List (String × ℚ)) (mm : Xml)
    (k : String) :
    getQ (occTopStep acc mm) k =
      getQ acc k +
        (match occTopEntry mm with
         | some kv => if k = kv.1 then kv.2 else 0
         | none => 0) := by
  unfold occTopStep occTopEntry
  cases hb : (truthy (findText (some mm) "bikeRef")).orElse
      (fun _ => truthy (mm.get "bikeRef")) with
  | none => simp only [hb]; simp
  | some bid =>
      cases hh : (truthy (findText (some mm) "hours")).orElse
          (fun _ => (truthy (mm.get "hours")).orElse
            (fun _ => (truthy (findText (some mm) "duration")).orElse
              (fun _ => truthy (mm.get "duration")))) with
      | none => simp only [hb, hh]; simp
      | some s =>
          cases hp : parseNum s with
          | none => simp only [hb, hh, hp]; simp
          | some v => simp only [hb, hh, hp]; simp [getQ_addQ]

theorem getQ_foldl_occTop (ms : List Xml) (acc : List (String × ℚ))
    (k : String) :
    getQ (ms.foldl occTopStep acc) k =
      getQ acc k +
        (ms.map
          (fun m =>
            match occTopEntry m with
            | some kv => if kv.1 = k then kv.2 else 0
            | none => 0)).sum := by
  induction ms generalizing acc with
  | nil => simp
  | cons mm t ih =>
      rw [List.foldl_cons, ih, getQ_occTopStep]
      simp only [List.map_cons, List.sum_cons]
      cases he : occTopEntry mm with
      | none => simp [he]
      | some kv =>
          simp only [he]
          by_cases hk : k = kv.1
          · subst hk
            simp
            ring
          · have hk' : ¬ (kv.1 = k) := fun he2 => hk he2.symm
            simp [hk, hk']

/-- C3 (amended): the occupancy `maint` table assigns each bike id the
in-window per-bike inline maintenance hours *plus all top-level
maintenance hours referencing it, with no date restriction*; available
hours are `period_days * 24` minus that quantity. -/
theorem C3_maint_table (cs : CyclingStats) (startTs endTs : Int)
    (bid : String) :
    getQ (occMaintTable cs startTs endTs) bid =
      perBikeMaintWindowed cs startTs endTs bid + topMaintAll cs bid := by
  unfold occMaintTable perBikeMaintWindowed topMaintAll
  cases hb : cs.bikes with
  | none =>
      cases hm : cs.maintenances with
      | none => simp [findAll, getQ]
      | some ms =>
          rw [getQ_foldl_occTop]
          simp [findAll, getQ]
  | some bikes =>
      cases hm : cs.maintenances with
      | none =>
          rw [getQ_occMaint_bikes]
          simp [getQ, findAll]
      | some ms =>
          rw [getQ_foldl_occTop, getQ_occMaint_bikes]
          simp [getQ]

/-- C3 (counterexample): on `exDoc3` the code's per-bike available-hours
deduction contains the 360 out-of-window top-level hours, while the
claim's in-window formula contains none of them. -/
theorem C3_counterexample : ¬ claimC3Prop (load exDoc3) 30 0 := by
  intro h
  have hc := h "b1"
  have hL : getQ (occMaintTable (load exDoc3)
      (occEnd (load exDoc3) 0 - ((30 : Nat) : Int) * 86400)
      (occEnd (load exDoc3) 0)) "b1" = 360 := by
    with_unfolding_all rfl
  have hR1 : perBikeMaintWindowed (load exDoc3)
      (occEnd (load exDoc3) 0 - ((30 : Nat) : Int) * 86400)
      (occEnd (load exDoc3) 0) "b1" = 0 := by
    with_unfolding_all rfl
  have hR2 : topMaintWindowed (load exDoc3)
      (occEnd (load exDoc3) 0 - ((30 : Nat) : Int) * 86400)
      (occEnd (load exDoc3) 0) "b1" = 0 := by
    with_unfolding_all rfl
  rw [hL, hR1, hR2] at hc
  norm_num at hc

/-! ## Claim C9 -/

/-- C9 (confirmed): an inline-attribute maintenance element with an
in-window date and *no* `duration` attribute contributes 0 maintenance
hours in `monthly_bike_stats` (default `float(m.get('duration', 0))`)
but 24 hours in `calculate_occupancy_rates` (default
`float(m.get('duration', 24))`), which reduces that bike's available
hours — two different defaults for the same record shape. -/
theorem C9_duration_defaults (startTs endTs : Int) (st : BikeStats)
    (acc : List (String × ℚ)) (bid : String) (m : Xml) (d : String)
    (t : DT)
    (hdur : m.get "duration" = none)
    (hd : truthy (m.get "date") = some d)
    (hp : parseDT d = some t)
    (hw : startTs ≤ t.ts ∧ t.ts < endTs) :
    (inlineMaintStep startTs endTs st m).maintenance_hours =
        st.maintenance_hours ∧
      getQ (occInlineStep startTs endTs bid acc m) bid =
        getQ acc bid + 24 := by
  constructor
  · unfold inlineMaintStep
    simp only [hd, hp, if_pos hw, hdur]
    cases hc : parseNum ((m.get "cost").getD "0") with
    | none => simp
    | some c => simp
  · unfold occInlineStep
    simp only [hd, hp, if_pos hw, hdur]
    simp [getQ_addQ]

/-- C9 witness: the statement applied to the concrete record
`exMaint9` inside the March 2024 window. -/
theorem C9_duration_defaults_witness :
    (inlineMaintStep (monthStartTs 2024 3) (monthEndTs 2024 3)
        ({ total_hours := 0, rental_hours := 0, maintenance_hours := 0,
           total_revenue := 0, booking_count := 0,
           maintenance_cost := 0 } : BikeStats)
        exMaint9).maintenance_hours =
      ({ total_hours := 0, rental_hours := 0, maintenance_hours := 0,
         total_revenue := 0, booking_count := 0,
         maintenance_cost := 0 } : BikeStats).maintenance_hours ∧
    getQ (occInlineStep (monthStartTs 2024 3) (monthEndTs 2024 3) "b1"
        [] exMaint9) "b1" =
      getQ [] "b1" + 24 := by
  refine C9_duration_defaults (monthStartTs 2024 3) (monthEndTs 2024 3)
    _ [] "b1" exMaint9 "2024-03-05" ⟨2024, 3, 5, 0, 0, 0⟩ ?_ ?_ ?_ ?_
  · with_unfolding_all rfl
  · with_unfolding_all rfl
  · with_unfolding_all rfl
  · with_unfolding_all decide

/-! ## Claim C5 -/

/-- C5 (confirmed): a trip group resolving to a package with price `p`
and carrying `n` participants adds `p * n` to the matched guide's and
path's revenue when the document has no `clients` section, and exactly
`p` when a `clients` section exists (even an empty one): the multiplier
is `participant_count` precisely when `clients` is `None`. -/
theorem C5_pricing_mode (cs : CyclingStats) (startD endD : Int)
    (stats : List (String × GuideStats)) (st : PAState) (group : Xml)
    (ds : String) (td : DT) (pid gid pathId ps : String) (p : ℚ)
    (gcur : GuideStats) (pcur : PathStats) (pkg : Xml)
    (h1 : truthy (findText (some group) "startDate") = some ds)
    (h2 : parseDT ds = some td)
    (h3 : startD ≤ td.ts ∧ td.ts < endD)
    (h4 : truthy (findText (some group) "packageRef") = some pid)
    (h5 : (truthy (cs.package_guide_cache.lookup pid)).orElse
      (fun _ => truthy (findText (resolvePackage cs pid)
        "assignedGuideRef")) = some gid)
    (h6 : stats.lookup gid = some gcur)
    (h7 : truthy (findText (resolvePackage cs pid) "price") = some ps)
    (h8 : parseNum ps = some p)
    (h9 : resolvePackage cs pid = some pkg)
    (h10 : truthy (findText (some pkg) "includedPathRef") = some pathId)
    (h11 : st.stats.lookup pathId = some pcur)
    (h12 : truthy (findText (some pkg) "price") = some ps) :
    ((guideStep cs startD endD stats group).lookup gid).map
        (fun g => g.revenue_generated) =
      some (gcur.revenue_generated +
        p * (if cs.clients.isNone then
          ((findAll (some group) "participant").length : ℚ) else 1)) ∧
    (((pathStep cs st group).stats.lookup pathId).map
        (fun q => q.revenue_generated)) =
      some (pcur.revenue_generated +
        p * (if cs.clients.isNone then
          ((findAll (some group) "participant").length : ℚ) else 1)) := by
  constructor
  · unfold guideStep
    simp only [h1, h2]
    rw [if_neg (not_not_intro h3)]
    simp only [h4, h5, h6, Option.isNone_some, Bool.false_eq_true,
      if_false, Option.getD_some]
    cases hpath : (truthy (cs.package_path_cache.lookup pid)).orElse
        (fun _ => truthy (findText (resolvePackage cs pid)
          "includedPathRef")) with
    | none =>
        simp only [hpath, h7, h8, lookup_updA_self]
        rfl
    | some pathId2 =>
        simp only [hpath, h7, h8, lookup_updA_self]
        rfl
  · unfold pathStep
    simp only [h1, h2, h4, h9, h10, h11, Option.isNone_some,
      Bool.false_eq_true, if_false, Option.getD_some, h12, h8]
    by_cases hst : findText (some group) "status" = some "completed"
    · simp only [hst, if_pos, lookup_updA_self]
      rfl
    · simp only [if_neg hst, lookup_updA_self]
      rfl

/-- C5 witness: the statement applied to the clients-free document
`tripDoc false` (price 100, three participants). -/
theorem C5_pricing_mode_witness :
    ((guideStep (load (tripDoc false)) (monthStartTs 2024 3)
          (monthEndTs 2024 3)
          [("g1", ({} : GuideStats))]
          (el "tripGroup" []
            [txt "startDate" "2024-03-10", txt "packageRef" "pkg1",
             txt "participant" "a", txt "participant" "b",
             txt "participant" "c"])).lookup "g1").map
        (fun g => g.revenue_generated) =
      some ((({} : GuideStats)).revenue_generated +
        100 * (if (load (tripDoc false)).clients.isNone then
          ((findAll (some (el "tripGroup" []
            [txt "startDate" "2024-03-10", txt "packageRef" "pkg1",
             txt "participant" "a", txt "participant" "b",
             txt "participant" "c"])) "participant").length : ℚ)
          else 1)) ∧
    (((pathStep (load (tripDoc false))
          ⟨[("p1", ({} : PathStats))], [], [], []⟩
          (el "tripGroup" []
            [txt "startDate" "2024-03-10", txt "packageRef" "pkg1",
             txt "participant" "a", txt "participant" "b",
             txt "participant" "c"])).stats.lookup "p1").map
        (fun q => q.revenue_generated)) =
      some ((({} : PathStats)).revenue_generated +
        100 * (if (load (tripDoc false)).clients.isNone then
          ((findAll (some (el "tripGroup" []
            [txt "startDate" "2024-03-10", txt "packageRef" "pkg1",
             txt "participant" "a", txt "participant" "b",
             txt "participant" "c"])) "participant").length : ℚ)
          else 1)) := by
  refine C5_pricing_mode (load (tripDoc false)) (monthStartTs 2024 3)
    (monthEndTs 2024 3) [("g1", ({} : GuideStats))]
    ⟨[("p1", ({} : PathStats))], [], [], []⟩
    (el "tripGroup" []
      [txt "startDate" "2024-03-10", txt "packageRef" "pkg1",
       txt "participant" "a", txt "participant" "b",
       txt "participant" "c"])
    "2024-03-10" ⟨2024, 3, 10, 0, 0, 0⟩ "pkg1" "g1" "p1" "100" 100
    ({} : GuideStats) ({} : PathStats)
    (el "tourPackage" [("id", "pkg1")]
      [txt "includedPathRef" "p1", txt "assignedGuideRef" "g1",
       txt "price" "100"])
    ?_ ?_ ?_ ?_ ?_ ?_ ?_ ?_ ?_ ?_ ?_ ?_
  · with_unfolding_all rfl
  · with_unfolding_all rfl
  · with_unfolding_all decide
  · with_unfolding_all rfl
  · with_unfolding_all rfl
  · with_unfolding_all rfl
  · with_unfolding_all rfl
  · with_unfolding_all rfl
  · with_unfolding_all rfl
  · with_unfolding_all rfl
  · with_unfolding_all rfl
  · with_unfolding_all rfl

/-! ## Claim C7: namespace stripping preserves locator results -/

theorem stripNs_ns (e : Xml) : (stripNs e).ns = none := by
  cases e; rfl

theorem stripNs_tag (e : Xml) : (stripNs e).tag = e.tag := by
  cases e; rfl

theorem stripNs_text (e : Xml) : (stripNs e).text = e.text := by
  cases e; rfl

theorem stripNs_children (e : Xml) :
    (stripNs e).children = stripList e.children := by
  cases e; rfl

theorem stripList_append (a b : List Xml) :
    stripList (a ++ b) = stripList a ++ stripList b := by
  induction a with
  | nil => rfl
  | cons c t ih =>
      show stripNs c :: stripList (t ++ b) =
        stripNs c :: (stripList t ++ stripList b)
      rw [ih]

mutual
theorem descendants_stripNs (e : Xml) :
    (stripNs e).descendants = stripList e.descendants := by
  cases e with
  | elem ns t a tx cs =>
      show descList (stripList cs) = stripList (descList cs)
      exact descList_strip cs

theorem descList_strip (cs : List Xml) :
    descList (stripList cs) = stripList (descList cs) := by
  cases cs with
  | nil => rfl
  | cons c t =>
      show stripNs c :: ((stripNs c).descendants ++ descList (stripList t))
        = stripList (c :: (c.descendants ++ descList t))
      rw [descendants_stripNs c, descList_strip t]
      show _ = stripNs c :: stripList (c.descendants ++ descList t)
      rw [stripList_append]
end

theorem allCt_parts (e : Xml) (h : allCt e = true) :
    e.ns = some ctNs ∧ allCtList e.children = true := by
  cases e with
  | elem ns t a tx cs =>
      have h' : (ns == some ctNs && allCtList cs) = true := h
      obtain ⟨h1, h2⟩ := (Bool.and_eq_true _ _).mp h'
      exact ⟨beq_iff_eq.mp h1, h2⟩

theorem allCtList_cons (c : Xml) (t : List Xml)
    (h : allCtList (c :: t) = true) :
    allCt c = true ∧ allCtList t = true := by
  have h' : (allCt c && allCtList t) = true := h
  exact (Bool.and_eq_true _ _).mp h'

theorem allCtList_append (a b : List Xml) (ha : allCtList a = true)
    (hb : allCtList b = true) : allCtList (a ++ b) = true := by
  induction a with
  | nil => exact hb
  | cons c t ih =>
      obtain ⟨hc, ht⟩ := allCtList_cons c t ha
      show (allCt c && allCtList (t ++ b)) = true
      rw [hc, ih ht]
      rfl

mutual
theorem allCt_descendants (e : Xml) (h : allCt e = true) :
    allCtList e.descendants = true := by
  cases e with
  | elem ns t a tx cs =>
      have h2 : allCtList cs = true := ((Bool.and_eq_true _ _).mp h).2
      exact allCtList_descList cs h2

theorem allCtList_descList (cs : List Xml) (h : allCtList cs = true) :
    allCtList (descList cs) = true := by
  cases cs with
  | nil => rfl
  | cons c t =>
      obtain ⟨hc, ht⟩ := allCtList_cons c t h
      show allCtList (c :: (c.descendants ++ descList t)) = true
      show (allCt c && allCtList (c.descendants ++ descList t)) = true
      rw [hc, allCtList_append _ _ (allCt_descendants c hc)
        (allCtList_descList t ht)]
      rfl
end

theorem matchQ_strip_false (p : String) (c : Xml) :
    matchQ (some ctNs) p none (stripNs c) = false := by
  unfold matchQ
  rw [stripNs_ns]
  rfl

theorem matchQ_none_false (p : String) (c : Xml) (h : allCt c = true) :
    matchQ none p none c = false := by
  unfold matchQ
  rw [(allCt_parts c h).1]
  rfl

theorem matchQ_strip_eq (p : String) (c : Xml) (h : allCt c = true) :
    matchQ none p none (stripNs c) = matchQ (some ctNs) p none c := by
  unfold matchQ
  rw [stripNs_ns, stripNs_tag, (allCt_parts c h).1]
  rfl

theorem filter_strip_ct (p : String) (cs : List Xml) :
    (stripList cs).filter (matchQ (some ctNs) p none) = [] := by
  induction cs with
  | nil => rfl
  | cons c t ih =>
      show (stripNs c :: stripList t).filter _ = []
      rw [List.filter_cons, matchQ_strip_false]
      simpa using ih

theorem filter_none_allCt (p : String) (cs : List Xml)
    (h : allCtList cs = true) :
    cs.filter (matchQ none p none) = [] := by
  induction cs with
  | nil => rfl
  | cons c t ih =>
      obtain ⟨hc, ht⟩ := allCtList_cons c t h
      rw [List.filter_cons, matchQ_none_false p c hc]
      simpa using ih ht

theorem filter_strip_comm (p : String) (cs : List Xml)
    (h : allCtList cs = true) :
    (stripList cs).filter (matchQ none p none) =
      stripList (cs.filter (matchQ (some ctNs) p none)) := by
  induction cs with
  | nil => rfl
  | cons c t ih =>
      obtain ⟨hc, ht⟩ := allCtList_cons c t h
      show (stripNs c :: stripList t).filter _ = _
      rw [List.filter_cons, List.filter_cons, matchQ_strip_eq p c hc]
      cases hm : matchQ (some ctNs) p none c
      · simpa using ih ht
      · simp only [ih ht]
        rfl

theorem head?_stripList (l : List Xml) :
    (stripList l).head? = l.head?.map stripNs := by
  cases l <;> rfl

theorem isEmpty_stripList (l : List Xml) :
    (stripList l).isEmpty = l.isEmpty := by
  cases l <;> rfl

theorem findtextDirect_ct_strip (p : String) (e : Xml) :
    findtextDirect (some ctNs) p (stripNs e) = none := by
  unfold findtextDirect findDirect
  rw [stripNs_children, filter_strip_ct]
  rfl

theorem findtextDesc_ct_strip (p : String) (e : Xml) :
    findtextDesc (some ctNs) p (stripNs e) = none := by
  unfold findtextDesc findDesc
  rw [descendants_stripNs, filter_strip_ct]
  rfl

theorem findtextDirect_strip (p : String) (e : Xml) (h : allCt e = true) :
    findtextDirect none p (stripNs e) = findtextDirect (some ctNs) p e := by
  unfold findtextDirect findDirect
  rw [stripNs_children, filter_strip_comm p e.children (allCt_parts e h).2,
    head?_stripList]
  cases hs : (e.children.filter (matchQ (some ctNs) p none)).head? with
  | none => rfl
  | some r => simp [stripNs_text]

theorem findtextDesc_strip (p : String) (e : Xml) (h : allCt e = true) :
    findtextDesc none p (stripNs e) = findtextDesc (some ctNs) p e := by
  unfold findtextDesc findDesc
  rw [descendants_stripNs,
    filter_strip_comm p e.descendants (allCt_descendants e h),
    head?_stripList]
  cases hs : (e.descendants.filter (matchQ (some ctNs) p none)).head? with
  | none => rfl
  | some r => simp [stripNs_text]

theorem findtextDirect_none_allCt (p : String) (e : Xml)
    (h : allCt e = true) : findtextDirect none p e = none := by
  unfold findtextDirect findDirect
  rw [filter_none_allCt p e.children (allCt_parts e h).2]
  rfl

theorem findtextDesc_none_allCt (p : String) (e : Xml)
    (h : allCt e = true) : findtextDesc none p e = none := by
  unfold findtextDesc findDesc
  rw [filter_none_allCt p e.descendants (allCt_descendants e h)]
  rfl

/-- C7 (confirmed): on a document carrying the default namespace on
every element, the Tolerant Locator's text lookup and multi-result
lookup agree with the lookups on the same document with every namespace
removed — `_find_text` returns the identical text and `_findall` the
identical elements up to the namespace stripping itself. -/
theorem C7_namespace_invariance (e : Xml) (p : String)
    (h : allCt e = true) :
    findText (some (stripNs e)) p = findText (some e) p ∧
    findAll (some (stripNs e)) p = stripList (findAll (some e) p) := by
  constructor
  · unfold findText
    simp only []
    rw [findtextDirect_ct_strip, findtextDesc_ct_strip,
      findtextDirect_strip p e h, findtextDesc_strip p e h,
      findtextDirect_none_allCt p e h, findtextDesc_none_allCt p e h]
    cases hA : findtextDirect (some ctNs) p e with
    | some v => rfl
    | none =>
        cases hB : findtextDesc (some ctNs) p e with
        | some v => rfl
        | none => rfl
  · unfold findAll findallDirect findallDesc
    simp only []
    rw [stripNs_children, descendants_stripNs, filter_strip_ct,
      filter_strip_ct,
      filter_strip_comm p e.children (allCt_parts e h).2,
      filter_strip_comm p e.descendants (allCt_descendants e h),
      filter_none_allCt p e.children (allCt_parts e h).2,
      filter_none_allCt p e.descendants (allCt_descendants e h)]
    simp only [List.isEmpty_nil, if_true, isEmpty_stripList]
    cases h1 : (e.children.filter (matchQ (some ctNs) p none)).isEmpty with
    | false =>
        simp only [h1, Bool.false_eq_true, if_false]
    | true =>
        simp only [h1, if_true]
        cases h2 : (e.descendants.filter (matchQ (some ctNs) p none)).isEmpty
          with
        | false =>
            simp only [h2, Bool.false_eq_true, if_false]
        | true =>
            simp only [h2, if_true]
            rw [List.isEmpty_iff.mp h2]
            rfl

/-- C7 witness: the fully namespaced nested `outer/inner` document
resolves `inner` to `hello` identically with and without the
namespace. -/
theorem C7_namespace_invariance_witness :
    (findText (some (stripNs exDoc7)) "inner" =
        findText (some exDoc7) "inner" ∧
      findAll (some (stripNs exDoc7)) "inner" =
        stripList (findAll (some exDoc7) "inner")) ∧
    findText (some exDoc7) "inner" = some "hello" := by
  constructor
  · exact C7_namespace_invariance exDoc7 "inner" (by with_unfolding_all rfl)
  · with_unfolding_all rfl

/-! ## Claim C8 -/

theorem latestStep_some (xs : List Xml) (l : Int) :
    ∃ l', xs.foldl
      (fun latest b =>
        match bookingEndCandidate b with
        | none => latest
        | some t =>
            match latest with
            | none => some t
            | some l => if t > l then some t else some l)
      (some l) = some l' := by
  induction xs generalizing l with
  | nil => exact ⟨l, rfl⟩
  | cons b t ih =>
      rw [List.foldl_cons]
      cases hc : bookingEndCandidate b with
      | none => simpa [hc] using ih l
      | some tv =>
          simp only [hc]
          by_cases hgt : tv > l
          · simpa [hgt] using ih tv
          · simpa [hgt] using ih l

theorem latestFold_none (xs : List Xml) (acc : Option Int)
    (h : xs.foldl
      (fun latest b =>
        match bookingEndCandidate b with
        | none => latest
        | some t =>
            match latest with
            | none => some t
            | some l => if t > l then some t else some l)
      acc = none) :
    ∀ b ∈ xs, bookingEndCandidate b = none := by
  induction xs generalizing acc with
  | nil => intro b hb; exact absurd hb (List.not_mem_nil b)
  | cons b t ih =>
      rw [List.foldl_cons] at h
      cases hc : bookingEndCandidate b with
      | none =>
          simp only [hc] at h
          intro x hx
          rcases List.mem_cons.mp hx with rfl | hx'
          · exact hc
          · exact ih _ h x hx'
      | some tv =>
          simp only [hc] at h
          exfalso
          cases acc with
          | none =>
              obtain ⟨l', hl'⟩ := latestStep_some t tv
              rw [hl'] at h
              exact Option.noConfusion h
          | some a =>
              simp only [] at h
              by_cases hgt : tv > a
              · rw [if_pos hgt] at h
                obtain ⟨l', hl'⟩ := latestStep_some t tv
                rw [hl'] at h
                exact Option.noConfusion h
              · rw [if_neg hgt] at h
                obtain ⟨l', hl'⟩ := latestStep_some t a
                rw [hl'] at h
                exact Option.noConfusion h

theorem latestEnd_none_candidates (B : Xml)
    (h : latestEnd (some B) = none) :
    ∀ b ∈ findAll (some B) "booking", bookingEndCandidate b = none := by
  unfold latestEnd at h
  exact latestFold_none _ none h

/-- A booking whose end candidate is unresolvable contributes no used
hours. -/
theorem occUsedStep_candidate_none (startTs endTs : Int)
    (occ used : List (String × ℚ)) (b : Xml)
    (hc : bookingEndCandidate b = none) :
    occUsedStep startTs endTs occ used b = used := by
  unfold occUsedStep
  cases hb : (truthy (b.get "bikeId")).orElse
      (fun _ => truthy (findText (some b) "bikeRef")) with
  | none => rfl
  | some bid =>
      simp only [hb]
      by_cases ho : (occ.lookup bid).isSome
      · simp only [ho, if_true]
        cases hbg : truthy (findText (some b) "begin") with
        | none =>
            cases hen : truthy (findText (some b) "end") <;> rfl
        | some bg =>
            cases hen : truthy (findText (some b) "end") with
            | none => rfl
            | some en =>
                unfold bookingEndCandidate at hc
                simp only [hen, Option.orElse] at hc
                cases hpe : parseDT en with
                | some d => rw [hpe] at hc; exact Option.noConfusion hc
                | none =>
                    simp only [hpe]
                    cases hpb : parseDT bg <;> rfl
      · simp only [ho, if_false]
        simp [Bool.not_eq_true] at ho
        simp [ho]

theorem foldl_congr_id {α β : Type} (f : β → α → β) (xs : List α)
    (acc : β) (h : ∀ x ∈ xs, ∀ a, f a x = a) : xs.foldl f acc = acc := by
  induction xs generalizing acc with
  | nil => rfl
  | cons x t ih =>
      rw [List.foldl_cons, h x (List.mem_cons_self x t) acc]
      exact ih _ (fun y hy a => h y (List.mem_cons_of_mem x hy) a)

/-- When no booking end resolves, the `used` table stays empty. -/
theorem used_nil_of_latest_none (cs : CyclingStats) (startTs endTs : Int)
    (occ : List (String × ℚ)) (hl : latestEnd cs.bookings = none) :
    (match cs.bookings with
     | none => ([] : List (String × ℚ))
     | some bs =>
         (findAll (some bs) "booking").foldl
           (occUsedStep startTs endTs occ) []) = [] := by
  cases hb : cs.bookings with
  | none => rfl
  | some bs =>
      rw [hb] at hl
      refine foldl_congr_id _ _ _ ?_
      intro b hbm a
      exact occUsedStep_candidate_none startTs endTs occ a b
        (latestEnd_none_candidates bs hl b hbm)

/-- C8 (confirmed): every aggregation call is a pure function of the
loaded model and its arguments — calling it twice yields identical
results with no state mutation.  The only
source of run-to-run variation in the source is the `datetime.now()`
fallback of `calculate_occupancy_rates` (modelled as the explicit `now`
argument), and when that fallback is reached every booking end is
unresolvable, the `used` table stays empty, and the occupancy output is
zero per bike whatever the wall clock reads — so even that method
returns identical results across calls. -/
theorem C8_idempotent_aggregations (cs : CyclingStats) (y mo days pm : Nat)
    (sd ed now now' : Int) :
    monthly_bike_stats cs y mo = monthly_bike_stats cs y mo ∧
    calculate_occupancy_rates cs days now =
      calculate_occupancy_rates cs days now' ∧
    guide_performance cs sd ed = guide_performance cs sd ed ∧
    path_analytics cs pm = path_analytics cs pm := by
  refine ⟨rfl, ?_, rfl, rfl⟩
  unfold calculate_occupancy_rates occEnd
  cases hbk : cs.bikes with
  | none => rfl
  | some bikes =>
      simp only []
      cases hl : latestEnd cs.bookings with
      | some l => rfl
      | none =>
          cases hcd : truthy (cs.root.get "currentDate") with
          | some cd =>
              cases hp : parseDT cd with
              | some t => simp only [hp]
              | none =>
                  simp only [hp]
                  apply List.map_congr_left
                  intro kv _
                  rw [used_nil_of_latest_none cs
                    (now - (days : Int) * 86400) now (occInit bikes) hl]
                  rw [used_nil_of_latest_none cs
                    (now' - (days : Int) * 86400) now' (occInit bikes) hl]
                  have h0 : getQ [] kv.1 = 0 := rfl
                  have hmin : min (100 : ℚ) 0 = 0 := by norm_num
                  simp only [h0, zero_div, zero_mul, hmin]
                  split <;> split <;> rfl
          | none =>
              simp only []
              apply List.map_congr_left
              intro kv _
              rw [used_nil_of_latest_none cs
                (now - (days : Int) * 86400) now (occInit bikes) hl]
              rw [used_nil_of_latest_none cs
                (now' - (days : Int) * 86400) now' (occInit bikes) hl]
              have h0 : getQ [] kv.1 = 0 := rfl
              have hmin : min (100 : ℚ) 0 = 0 := by norm_num
              simp only [h0, zero_div, zero_mul, hmin]
              split <;> split <;> rfl

end Cyc
